import Mathlib

/-! kubeswitch: the persisted search index (`pkg/index/index.go`) and the
start of the switcher command (`cmd/switcher/switcher.go`)

A shallow embedding of the `SearchIndex` type and its operations.  The Go code
talks to the operating system (`os.Stat`, `os.ReadFile`, `os.Create`,
`os.Remove`, `os.Mkdir`), to the clock (`time.Now`) and to the YAML library
(`yaml.Marshal`, `yaml.Unmarshal`).  The file system is an explicit state that
is passed through every operation, the clock reading is an explicit argument,
and the YAML library is a parameter (`Yaml`).

Of the switcher command the embedding holds `initialize` and the functions it
calls in the same file; the package-level variables and the environment are
a record (`Process`), the functions of other packages a parameter
(`Collaborators`).
-/

namespace Kubeswitch

/-! ## Values of the `types` package and of the Go runtime -/

/-- Modelled from the spec: `types.StoreKind`, the enum of source kinds. The
package `types` is not part of the sources at hand; in Go it is a string type
and the code only compares its values with `!=` and `==`. -/
abbrev StoreKind := String

/-- A `time.Time` as an instant: nanoseconds since the Unix epoch. Go stores
the seconds of an instant in an `int64` counted from year 1, so every
timestamp a state file can hold, moved by any `time.Duration`, is
representable and `Add` does not overflow there. -/
abbrev Time := Int

/-- A `time.Duration`: a number of nanoseconds (negative values included). -/
abbrev Duration := Int

/-- `Time.UTC`: the same instant, shown in UTC. -/
def Time.UTC (t : Time) : Time := t

/-- `Time.Add`. -/
def Time.Add (t : Time) (d : Duration) : Time := t + d

/-- `Time.Before`. -/
def Time.Before (t u : Time) : Bool := decide (t < u)

/-- A Go `map[string]string`: `none` is the nil map, `some l` an allocated map
holding the key/value pairs of `l` (the first pair of a key is its value). -/
abbrev GoMap := Option (List (String × String))

/-- The Go expression `m[k]` with the comma-ok form: reading a nil map finds
nothing. -/
def GoMap.get (m : GoMap) (k : String) : Option String :=
  match m with
  | none => none
  | some l => l.lookup k

/-- Modelled from the spec: `types.Index`, the persisted
`{kind, contextToPathMapping}` record. The package `types` is not part of the
sources at hand. -/
structure Index where
  Kind : StoreKind
  ContextToPathMapping : GoMap
deriving DecidableEq, Repr

/-- Modelled from the spec: `types.IndexState`, the persisted
`{kind, lastUpdateTime}` record. The package `types` is not part of the sources
at hand. -/
structure IndexState where
  Kind : StoreKind
  LastUpdateTime : Time
deriving DecidableEq, Repr

/-- Modelled from the spec: `types.Cache`, the cache configuration of a store,
of which the code at hand reads the kind. The package `types` is not part of
the sources at hand. -/
structure Cache where
  Kind : String
deriving DecidableEq, Repr

/-- Modelled from the spec: `types.KubeconfigStore`, one configured source
`{kind, id, paths, required?, kubeconfigName?, cache?, refreshIndexAfter?}`
and the `ShowPrefix` pointer that the switcher sets. Pointers are options
(`none` is nil), the slice of paths is a list. The package `types` is not
part of the sources at hand. -/
structure KubeconfigStore where
  ID : Option String := none
  Kind : StoreKind
  KubeconfigName : Option String := none
  Paths : List String := []
  Required : Option Bool := none
  ShowPrefix : Option Bool := none
  Cache : Option Cache := none
  RefreshIndexAfter : Option Duration := none
deriving DecidableEq, Repr

/-- Modelled from the spec: the part of `types.Config` that the code at hand
reads: the optional global `refreshIndexAfter` (`*time.Duration`, `none` is
nil), the optional kubeconfig file name and the configured stores. -/
structure Config where
  RefreshIndexAfter : Option Duration
  KubeconfigName : Option String := none
  KubeconfigStores : List KubeconfigStore := []
deriving DecidableEq, Repr

/-- The zero value `types.Config{}`. -/
def Config.zero : Config :=
  { RefreshIndexAfter := none, KubeconfigName := none, KubeconfigStores := [] }

/-- Modelled from the spec: the constant `types.StoreKindFilesystem`. -/
def StoreKindFilesystem : StoreKind := "filesystem"

/-- Modelled from the spec: the constant `types.StoreKindVault`. -/
def StoreKindVault : StoreKind := "vault"

/-- Modelled from the spec: the constant `types.StoreKindGardener`. -/
def StoreKindGardener : StoreKind := "gardener"

/-- Modelled from the spec: the constant `types.StoreKindGKE`. -/
def StoreKindGKE : StoreKind := "gke"

/-- Modelled from the spec: the constant `types.StoreKindAzure`. -/
def StoreKindAzure : StoreKind := "azure"

/-- Modelled from the spec: the constant `types.StoreKindEKS`. -/
def StoreKindEKS : StoreKind := "eks"

/-- The zero value `types.Index{}`. -/
def Index.zero : Index := { Kind := "", ContextToPathMapping := none }

/-- The zero value `types.IndexState{}`: empty kind and the zero `time.Time`
(January 1, year 1, 00:00 UTC, in nanoseconds before the Unix epoch). -/
def IndexState.zero : IndexState :=
  { Kind := "", LastUpdateTime := -62135596800000000000 }

/-! ## Errors -/

/-- Go `error` values as far as the code tells them apart. -/
inductive Error where
  /-- An error of the `os` package for which `os.IsNotExist` is true. -/
  | notExist
  /-- Any other error of the `os` package (permissions, is-a-directory, ...). -/
  | os
  /-- An error returned by the YAML library. -/
  | yaml (msg : String)
  /-- An error built by `fmt.Errorf` with the verb `%v`: the cause is only
  printed into the message, `os.IsNotExist` is false for it. Errors built
  with `%w` are modelled the same way where nothing looks at the cause. -/
  | errorf (msg : String)
deriving DecidableEq, Repr

deriving instance DecidableEq for Except

/-- `os.IsNotExist`. -/
def Error.isNotExist : Error → Bool
  | .notExist => true
  | _ => false

/-! ## The file system -/

/-- What the process finds at a path. -/
inductive Entry where
  /-- Nothing there: `os.Stat` fails with a not-exist error. `creatable` says
  whether a file or directory can be created at the path (the parent directory
  exists and is writable). -/
  | absent (creatable : Bool)
  /-- A regular file. `readable` says whether the process can open it. -/
  | file (content : String) (readable : Bool)
  /-- A directory. -/
  | dir
  /-- A path the process cannot inspect: `os.Stat` fails with an error other
  than not-exist, and so does every other call. -/
  | denied
deriving DecidableEq, Repr

/-- The file system: what is found at every path. -/
abbrev FS := String → Entry

/-- The file system with the entry at `p` replaced. -/
def FS.set (fs : FS) (p : String) (e : Entry) : FS :=
  fun q => if q = p then e else fs q

/-- `os.Stat`, as far as the code looks at it: the error or nil. -/
def osStat (fs : FS) (p : String) : Option Error :=
  match fs p with
  | .absent _ => some .notExist
  | .denied => some .os
  | _ => none

/-- `os.ReadFile`. -/
def osReadFile (fs : FS) (p : String) : Except Error String :=
  match fs p with
  | .file c true => .ok c
  | .absent _ => .error .notExist
  | _ => .error .os

/-- `os.Mkdir`. -/
def osMkdir (fs : FS) (p : String) : Option Error × FS :=
  match fs p with
  | .absent true => (none, fs.set p .dir)
  | _ => (some .os, fs)

/-- `os.Create`: opens the file for reading and writing, creating it or
truncating it to length zero. -/
def osCreate (fs : FS) (p : String) : Option Error × FS :=
  match fs p with
  | .absent true => (none, fs.set p (.file "" true))
  | .file _ true => (none, fs.set p (.file "" true))
  | _ => (some .os, fs)

/-- `(*os.File).Write` on the file just opened by `os.Create` at `p`, followed
by the deferred `Close`: the file holds the written bytes. A failing write
of an open file (a full disk) is outside the model. -/
def fileWrite (fs : FS) (p : String) (output : String) : Option Error × FS :=
  (none, fs.set p (.file output true))

/-- `os.Remove`: removes a file or an (empty) directory. -/
def osRemove (fs : FS) (p : String) : Option Error × FS :=
  match fs p with
  | .absent _ => (some .notExist, fs)
  | .denied => (some .os, fs)
  | _ => (none, fs.set p (.absent true))

/-! ## The YAML library -/

/-- The calls into `gopkg.in/yaml.v2` that the index makes. The library is not
part of the repository; the operations are quantified over all libraries.
`unmarshalIndex b` is the outcome of `yaml.Unmarshal(b, &index)` where `index`
points to a zero `types.Index`: the error, or the final value of the pointer
`index` (which the library may set to nil); likewise for the state. -/
structure Yaml where
  marshalIndex : Index → Except Error String
  unmarshalIndex : String → Except Error (Option Index)
  marshalState : IndexState → Except Error String
  unmarshalState : String → Except Error (Option IndexState)

/-! ## `SearchIndex` -/

/-- The constant `indexStateFileName`. -/
def indexStateFileName : String := "index.state"

/-- The constant `indexFileName`. -/
def indexFileName : String := "index"

/-- The struct `SearchIndex` (the logger is left out); `content` is a pointer,
`none` is nil. -/
structure SearchIndex where
  indexFilepath : String
  indexStateFilepath : String
  kubeconfigStoreKind : StoreKind
  content : Option Index
deriving DecidableEq, Repr

/-- `fmt.Sprintf("%s/switch.%s.%s", stateDirectory, storeID, name)`. -/
def sprintfPath (stateDirectory storeID name : String) : String :=
  stateDirectory ++ "/switch." ++ storeID ++ "." ++ name

/-- `(*SearchIndex).loadFromFile`. -/
def SearchIndex.loadFromFile (y : Yaml) (fs : FS) (i : SearchIndex) :
    Except Error (Option Index) :=
  match osStat fs i.indexFilepath with
  | some err => .error err
  | none =>
    match osReadFile fs i.indexFilepath with
    | .error _ => .error (.errorf "failed to read index file. File corrupt?")
    | .ok bytes =>
      if bytes.length = 0 then .ok (some Index.zero)
      else
        match y.unmarshalIndex bytes with
        | .error _ => .error (.errorf "could not unmarshal index file")
        | .ok index => .ok index

/-- `New`: creates a new SearchIndex. Returns the result and the file system
it leaves behind. -/
def New (y : Yaml) (fs : FS) (storeKind : StoreKind) (stateDirectory storeID : String) :
    Except Error SearchIndex × FS :=
  let made : Option Error × FS :=
    match osStat fs stateDirectory with
    | some err => if err.isNotExist then osMkdir fs stateDirectory else (none, fs)
    | none => (none, fs)
  match made with
  | (some err, fs1) => (.error err, fs1)
  | (none, fs1) =>
    let indexStateFilepath := sprintfPath stateDirectory storeID indexStateFileName
    let indexFilepath := sprintfPath stateDirectory storeID indexFileName
    let i : SearchIndex :=
      { indexFilepath := indexFilepath
        indexStateFilepath := indexStateFilepath
        kubeconfigStoreKind := storeKind
        content := none }
    match i.loadFromFile y fs1 with
    | .error err =>
      if !err.isNotExist then (.error err, fs1)
      else (.ok { i with content := none }, fs1)
    | .ok indexFromFile => (.ok { i with content := indexFromFile }, fs1)

/-- `(*SearchIndex).HasContent`. -/
def SearchIndex.HasContent (i : SearchIndex) : Bool :=
  i.content.isSome

/-- `(*SearchIndex).HasKind`. -/
def SearchIndex.HasKind (i : SearchIndex) (kind : StoreKind) : Bool :=
  match i.content with
  | none => false
  | some c => decide (c.Kind = kind)

/-- `(*SearchIndex).GetContent`. -/
def SearchIndex.GetContent (i : SearchIndex) : GoMap :=
  match i.content with
  | none => none
  | some c => c.ContextToPathMapping

/-- `(*SearchIndex).getIndexState`: loads and unmarshalls an index state
file (the warning it logs is left out). -/
def SearchIndex.getIndexState (y : Yaml) (fs : FS) (i : SearchIndex) :
    Except Error (Option IndexState) :=
  match osStat fs i.indexStateFilepath with
  | some err => if err.isNotExist then .ok none else .error err
  | none =>
    match osReadFile fs i.indexStateFilepath with
    | .error err => .error err
    | .ok bytes =>
      if bytes.length = 0 then .ok (some IndexState.zero)
      else
        match y.unmarshalState bytes with
        | .error _ => .error (.errorf "could not unmarshal index state file")
        | .ok state => .ok state

/-- `(*SearchIndex).ShouldBeUsed`: checks if the index file with pre-computed
mappings should be used. `now` is the reading of `time.Now()`. The result is
the Go pair `(bool, error)`, `none` being the nil error. -/
def SearchIndex.ShouldBeUsed (y : Yaml) (fs : FS) (i : SearchIndex) (config : Option Config)
    (storeLocalRefreshIndexAfter : Option Duration) (now : Time) : Bool × Option Error :=
  match i.getIndexState y fs with
  | .error _ => (false, some (.errorf "failed to get index state"))
  | .ok indexState =>
    match indexState with
    | none => (false, none)
    | some st =>
      if st.Kind ≠ i.kubeconfigStoreKind then (false, none)
      else
        let refreshAfter0 : Option Duration :=
          match config with
          | some c =>
            match c.RefreshIndexAfter with
            | some d => some d
            | none => none
          | none => none
        let refreshAfter : Option Duration :=
          match storeLocalRefreshIndexAfter with
          | some d => some d
          | none => refreshAfter0
        match refreshAfter with
        | none => (false, none)
        | some d => (Time.Before (Time.UTC now) (Time.Add (Time.UTC st.LastUpdateTime) d), none)

/-- `(*SearchIndex).WriteState`. -/
def SearchIndex.WriteState (y : Yaml) (fs : FS) (i : SearchIndex) (toWrite : IndexState) :
    Option Error × FS :=
  match osCreate fs i.indexStateFilepath with
  | (some err, fs1) => (some err, fs1)
  | (none, fs1) =>
    match y.marshalState toWrite with
    | .error err => (some err, fs1)
    | .ok output => fileWrite fs1 i.indexStateFilepath output

/-- `(*SearchIndex).Write`. -/
def SearchIndex.Write (y : Yaml) (fs : FS) (i : SearchIndex) (toWrite : Index) :
    Option Error × FS :=
  match osCreate fs i.indexFilepath with
  | (some err, fs1) => (some err, fs1)
  | (none, fs1) =>
    match y.marshalIndex toWrite with
    | .error err => (some err, fs1)
    | .ok output => fileWrite fs1 i.indexFilepath output

/-- `(*SearchIndex).Delete`. -/
def SearchIndex.Delete (fs : FS) (i : SearchIndex) : Option Error × FS :=
  match osStat fs i.indexStateFilepath with
  | some err => if err.isNotExist then (none, fs) else (some err, fs)
  | none =>
    match osRemove fs i.indexFilepath with
    | (some err, fs1) => (some err, fs1)
    | (none, fs1) =>
      match osRemove fs1 i.indexStateFilepath with
      | (some err, fs2) => (some err, fs2)
      | (none, fs2) => (none, fs2)

/-- The SearchIndex value that `New` builds before it loads the index file. -/
def SearchIndex.unloaded (storeKind : StoreKind) (stateDirectory storeID : String) :
    SearchIndex :=
  { indexFilepath := sprintfPath stateDirectory storeID indexFileName
    indexStateFilepath := sprintfPath stateDirectory storeID indexStateFileName
    kubeconfigStoreKind := storeKind
    content := none }

/-- The contract of the YAML library for one index value: marshalling it
succeeds with a document that is not empty, and unmarshalling that document
gives an index of the same kind with the same value under every key (a nil
map may come back as an empty one). -/
def Yaml.ReadsBackIndex (y : Yaml) (idx : Index) : Prop :=
  ∃ doc, y.marshalIndex idx = .ok doc ∧ doc.length ≠ 0 ∧
    ∃ back, y.unmarshalIndex doc = .ok (some back) ∧ back.Kind = idx.Kind ∧
      ∀ k, back.ContextToPathMapping.get k = idx.ContextToPathMapping.get k

/-! ## A YAML library given by a table of documents

For concrete runs the library is instantiated by a finite table: the documents
it knows and the values they stand for. -/

/-- The value a document stands for: a document of the table decodes to its
value, every other document is rejected. -/
def tableDecode {α : Type} (table : List (String × Option α)) (doc : String) :
    Except Error (Option α) :=
  match table.lookup doc with
  | some v => .ok v
  | none => .error (.yaml "cannot unmarshal")

/-- The document of a value: the first document of the table that stands for
it. -/
def tableEncode {α : Type} [DecidableEq α] (table : List (String × Option α)) (v : α) :
    Except Error String :=
  match table.find? (fun e => decide (e.2 = some v)) with
  | some e => .ok e.1
  | none => .error (.yaml "cannot marshal")

/-- The YAML library restricted to the documents of two tables. -/
def tableYaml (indexDocs : List (String × Option Index))
    (stateDocs : List (String × Option IndexState)) : Yaml :=
  { marshalIndex := tableEncode indexDocs
    unmarshalIndex := tableDecode indexDocs
    marshalState := tableEncode stateDocs
    unmarshalState := tableDecode stateDocs }

/-- March 1st 2021, 10:00:00 UTC, in nanoseconds since the Unix epoch. -/
def sampleInstant : Time := 1614592800000000000

/-- One second as a `time.Duration`. -/
def second : Duration := 1000000000

/-- One minute as a `time.Duration`. -/
def minute : Duration := 60 * second

/-- An index of the vault store with one context. -/
def sampleIndex : Index :=
  { Kind := "vault"
    ContextToPathMapping := some [("dev", "/home/user/.kube/dev.yaml")] }

/-- The documents of the sample library: one index, the state of a vault
store and of a filesystem store written at `sampleInstant`, and the null
document. -/
def sampleYaml : Yaml :=
  tableYaml
    [("kind: vault\ncontextToPathMapping:\n  dev: /home/user/.kube/dev.yaml\n", some sampleIndex),
     ("~\n", none)]
    [("kind: vault\nlastUpdateTime: 2021-03-01T10:00:00Z\n",
        some { Kind := "vault", LastUpdateTime := sampleInstant }),
     ("kind: filesystem\nlastUpdateTime: 2021-03-01T10:00:00Z\n",
        some { Kind := "filesystem", LastUpdateTime := sampleInstant }),
     ("~\n", none)]

/-- A file system with the state directory `/state` and nothing else. -/
def emptyStateDir : FS :=
  fun p => if p = "/state" then .dir else .absent true

/-- The SearchIndex of store `s1` of the given kind under `/state`, nothing
loaded. -/
def sampleSearchIndex (kind : StoreKind) : SearchIndex :=
  { indexFilepath := "/state/switch.s1.index"
    indexStateFilepath := "/state/switch.s1.index.state"
    kubeconfigStoreKind := kind
    content := none }

/-- The state directory holding only the state file of store `s1`, written
for the vault kind at `sampleInstant`. -/
def vaultStateOnly : FS :=
  emptyStateDir.set "/state/switch.s1.index.state"
    (.file "kind: vault\nlastUpdateTime: 2021-03-01T10:00:00Z\n" true)

/-- The state directory holding only the state file of store `s1`, written
for the filesystem kind at `sampleInstant`. -/
def filesystemStateOnly : FS :=
  emptyStateDir.set "/state/switch.s1.index.state"
    (.file "kind: filesystem\nlastUpdateTime: 2021-03-01T10:00:00Z\n" true)

/-- The state directory holding only a state file that is not YAML. -/
def brokenStateOnly : FS :=
  emptyStateDir.set "/state/switch.s1.index.state" (.file "kind: [" true)

/-- The state directory holding only the index file of store `s1`. -/
def indexOnly : FS :=
  emptyStateDir.set "/state/switch.s1.index"
    (.file "kind: vault\ncontextToPathMapping:\n  dev: /home/user/.kube/dev.yaml\n" true)

/-- The state directory holding only an index file that is not YAML. -/
def brokenIndexOnly : FS :=
  emptyStateDir.set "/state/switch.s1.index" (.file "kind: [" true)

/-! ## The switcher command (`cmd/switcher/switcher.go`) -/

/-- The constant `vaultTokenFileName`. -/
def vaultTokenFileName : String := ".vault-token"

/-- The constant `defaultKubeconfigName`. -/
def defaultKubeconfigName : String := "config"

/-- The constant `defaultKubeconfigPath`. -/
def defaultKubeconfigPath : String := "$HOME/.kube/config"

/-- The constant `linuxEnvKubeconfigSeperator`, the one-character string `":"`,
as a character. -/
def linuxEnvKubeconfigSeperator : Char := ':'

/-- The pieces of a character list between the occurrences of `sep`. -/
def splitChars (sep : Char) : List Char → List (List Char)
  | [] => [[]]
  | c :: cs =>
    if c = sep then [] :: splitChars sep cs
    else
      match splitChars sep cs with
      | [] => [[c]]
      | piece :: pieces => (c :: piece) :: pieces

/-- `strings.Split` for a separator of one character: a string without the
separator (the empty string included) gives one piece, the string itself. -/
def stringsSplit (s : String) (sep : Char) : List String :=
  (splitChars sep s.data).map String.mk

/-- `strings.HasSuffix`. -/
def stringsHasSuffix (s suffix : String) : Bool :=
  suffix.data.isSuffixOf s.data

/-- `strings.ReplaceAll` for an old string of one character. -/
def stringsReplaceAll (s : String) (old : Char) (new : String) : String :=
  String.mk (s.data.flatMap (fun c => if c = old then new.data else [c]))

/-- The package-level variables of the command that `initialize` reads (set
from the command line flags), the `KUBECONFIG` variable of the environment
and the file system. -/
structure Process where
  kubeconfigPath : String
  kubeconfigName : String
  storageBackend : String
  vaultAPIAddressFromFlag : String
  configPath : String
  stateDirectory : String
  KUBECONFIG : String
  fs : FS

/-- The functions of other packages that `initialize` calls, for store handles
of type `σ`: the config loader and validator, the two expansions of
environment references, the constructors of the stores and of the cache.
They are not part of the sources at hand and the operations are quantified
over them. `ValidateConfig` gives the list of validation errors. -/
structure Collaborators (σ : Type) where
  LoadConfigFromFile : String → Except Error (Option Config)
  ValidateConfig : Config → List String
  utilExpandEnv : String → String
  osExpandEnv : String → String
  NewFilesystemStore : String → KubeconfigStore → Except Error σ
  NewVaultStore : String → String → String → KubeconfigStore → Except Error σ
  NewGardenerStore : KubeconfigStore → String → Except Error σ
  NewGKEStore : KubeconfigStore → String → Except Error σ
  NewAzureStore : KubeconfigStore → String → Except Error σ
  NewEKSStore : KubeconfigStore → String → Except Error σ
  cacheNew : String → σ → Option Cache → Except Error σ

/-- The inner loop of `isDuplicatePath`, over the paths of one store. -/
def isDuplicatePathIn : List String → String → Bool
  | [], _ => false
  | path :: paths, newPath => if path = newPath then true else isDuplicatePathIn paths newPath

/-- `isDuplicatePath`: searches through all kubeconfig stores and checks if
the given path is already configured in any of these stores. -/
def isDuplicatePath : List KubeconfigStore → String → Bool
  | [], _ => false
  | store :: stores, newPath =>
    if isDuplicatePathIn store.Paths newPath then true else isDuplicatePath stores newPath

/-- `getKubeconfigPathFromFlag`: the kubeconfig path configured in the flag
`--kubeconfig-path`, and the new value of the variable `kubeconfigPath`. -/
def getKubeconfigPathFromFlag {σ : Type} (c : Collaborators σ) (p : Process) : String × String :=
  if p.kubeconfigPath.length = 0 then ("", p.kubeconfigPath)
  else
    let kubeconfigPath := stringsReplaceAll p.kubeconfigPath '~' "$HOME"
    if kubeconfigPath = defaultKubeconfigPath then
      match osStat p.fs (c.osExpandEnv defaultKubeconfigPath) with
      | some _ => ("", kubeconfigPath)
      | none => (c.osExpandEnv defaultKubeconfigPath, kubeconfigPath)
    else (c.osExpandEnv kubeconfigPath, kubeconfigPath)

/-- The loop of `getStoreFromFlagAndEnv` over the paths of the `KUBECONFIG`
variable: `paths` is the slice built so far. -/
def appendPathsFromEnv {σ : Type} (c : Collaborators σ) (stores : List KubeconfigStore) :
    List String → List String → List String
  | [], paths => paths
  | path :: pathsFromEnv, paths =>
    if (!isDuplicatePath stores path && !stringsHasSuffix path ".tmp" && decide (path ≠ "")) then
      appendPathsFromEnv c stores pathsFromEnv (paths ++ [c.utilExpandEnv path])
    else appendPathsFromEnv c stores pathsFromEnv paths

/-- `getStoreFromFlagAndEnv`: translates the kubeconfig flag and the variable
`KUBECONFIG` into a dedicated store. `kubeconfigName` is the current value of
the package-level variable of that name; `none` is the nil pointer. -/
def getStoreFromFlagAndEnv {σ : Type} (c : Collaborators σ) (p : Process)
    (kubeconfigName : String) (config : Config) : Option KubeconfigStore :=
  let pathFromFlag := (getKubeconfigPathFromFlag c p).1
  let paths0 : List String := if pathFromFlag.length > 0 then [pathFromFlag] else []
  let pathsFromEnv := stringsSplit p.KUBECONFIG linuxEnvKubeconfigSeperator
  let paths := appendPathsFromEnv c config.KubeconfigStores pathsFromEnv paths0
  if paths.length = 0 then none
  else
    some { ID := some "env-and-flag"
           Kind := p.storageBackend
           KubeconfigName := some kubeconfigName
           Paths := paths
           ShowPrefix := some false }

/-- The test `Required != nil && !*Required` of `initialize`. -/
def KubeconfigStore.explicitlyNotRequired (st : KubeconfigStore) : Bool :=
  match st.Required with
  | some required => !required
  | none => false

/-- How one turn of the store loop of `initialize` leaves the `switch` on
the kind: with a store, with `continue`, or with the return of an error. -/
inductive Construction (σ : Type) where
  | built (s : σ)
  | skipped
  | failed (err : Error)
deriving DecidableEq, Repr

/-- The `switch` on the store kind in the loop of `initialize`. -/
def constructStore {σ : Type} (c : Collaborators σ) (p : Process) (kubeconfigName : String)
    (st : KubeconfigStore) : Construction σ :=
  if st.Kind = StoreKindFilesystem then
    match c.NewFilesystemStore kubeconfigName st with
    | .error err => if st.explicitlyNotRequired then .skipped else .failed err
    | .ok filesystemStore => .built filesystemStore
  else if st.Kind = StoreKindVault then
    match c.NewVaultStore p.vaultAPIAddressFromFlag vaultTokenFileName kubeconfigName st with
    | .error err => if st.explicitlyNotRequired then .skipped else .failed err
    | .ok vaultStore => .built vaultStore
  else if st.Kind = StoreKindGardener then
    match c.NewGardenerStore st p.stateDirectory with
    | .error _ => .failed (.errorf "unable to create Gardener store")
    | .ok gardenerStore => .built gardenerStore
  else if st.Kind = StoreKindGKE then
    match c.NewGKEStore st p.stateDirectory with
    | .error _ => .failed (.errorf "unable to create GKE store")
    | .ok gkeStore => .built gkeStore
  else if st.Kind = StoreKindAzure then
    match c.NewAzureStore st p.stateDirectory with
    | .error _ =>
      if st.explicitlyNotRequired then .skipped
      else .failed (.errorf "unable to create Azure store")
    | .ok azureStore => .built azureStore
  else if st.Kind = StoreKindEKS then
    match c.NewEKSStore st p.stateDirectory with
    | .error err => if st.explicitlyNotRequired then .skipped else .failed err
    | .ok eksStore => .built eksStore
  else .failed (.errorf "unknown store")

/-- The loop of `initialize` over `config.KubeconfigStores`: `kubeconfigName`
is the current value of the package-level variable, `stores` the slice built
so far. -/
def initializeStores {σ : Type} (c : Collaborators σ) (p : Process) :
    String → List KubeconfigStore → List σ → Except Error (List σ)
  | _, [], stores => .ok stores
  | kubeconfigName, st :: rest, stores =>
    let kubeconfigName1 : String :=
      match st.KubeconfigName with
      | some name => if name ≠ "" then name else kubeconfigName
      | none => kubeconfigName
    match constructStore c p kubeconfigName1 st with
    | .skipped => initializeStores c p kubeconfigName1 rest stores
    | .failed err => .error err
    | .built s =>
      let cached : Except Error σ :=
        match st.Cache with
        | none => c.cacheNew "memory" s none
        | some cacheCfg => c.cacheNew cacheCfg.Kind s (some cacheCfg)
      match cached with
      | .error err => .error err
      | .ok s1 => initializeStores c p kubeconfigName1 rest (stores ++ [s1])

/-- The function `initialize` of the switcher command (its Go name is a
reserved word here): the stores and the config, or the error (setting the log
level is left out; the final values of the package-level variables are not
returned). -/
def initializeSwitcher {σ : Type} (c : Collaborators σ) (p : Process) :
    Except Error (List σ × Config) :=
  match c.LoadConfigFromFile (c.utilExpandEnv p.configPath) with
  | .error _ => .error (.errorf "failed to read switch config file")
  | .ok loaded =>
    let checked : Except Error Config :=
      match loaded with
      | some config =>
        if (c.ValidateConfig config).length > 0 then
          .error (.errorf "the switch configuration file contains errors")
        else .ok config
      | none => .ok Config.zero
    match checked with
    | .error err => .error err
    | .ok config =>
      let kubeconfigName : String :=
        if p.kubeconfigName = defaultKubeconfigName then
          match config.KubeconfigName with
          | some name => if name ≠ "" then name else p.kubeconfigName
          | none => p.kubeconfigName
        else p.kubeconfigName
      let config1 : Config :=
        match getStoreFromFlagAndEnv c p kubeconfigName config with
        | some storeFromFlags =>
          { config with KubeconfigStores := config.KubeconfigStores ++ [storeFromFlags] }
        | none => config
      if config1.KubeconfigStores.length = 0 then
        .error (.errorf "you need to point kubeswitch to a kubeconfig file")
      else
        match initializeStores c p kubeconfigName config1.KubeconfigStores [] with
        | .error err => .error err
        | .ok stores => .ok (stores, config1)

/-- Collaborators for concrete runs, with store handles that are strings:
the config file holds `loaded`, validation finds nothing, there are no
environment references to expand, the filesystem store can be constructed
and every other store fails to (an authentication error); the cache wraps
the handle. -/
def sampleCollaborators (loaded : Option Config) : Collaborators String :=
  { LoadConfigFromFile := fun _ => .ok loaded
    ValidateConfig := fun _ => []
    utilExpandEnv := fun path => path
    osExpandEnv := fun path => path
    NewFilesystemStore := fun _ st => .ok ("filesystem/" ++ st.ID.getD "")
    NewVaultStore := fun _ _ _ _ => .error .os
    NewGardenerStore := fun _ _ => .error .os
    NewGKEStore := fun _ _ => .error .os
    NewAzureStore := fun _ _ => .error .os
    NewEKSStore := fun _ _ => .error .os
    cacheNew := fun kind s _ => .ok (kind ++ ":" ++ s) }

/-- A process without a kubeconfig flag and with the given `KUBECONFIG`
variable. -/
def sampleProcess (kubeconfigEnv : String) : Process :=
  { kubeconfigPath := ""
    kubeconfigName := "config"
    storageBackend := "filesystem"
    vaultAPIAddressFromFlag := ""
    configPath := "/home/user/.kube/switch-config.yaml"
    stateDirectory := "/state"
    KUBECONFIG := kubeconfigEnv
    fs := emptyStateDir }

/-- The filesystem store `local` of the sample configs. -/
def localStore : KubeconfigStore :=
  { ID := some "local", Kind := "filesystem", Paths := ["/home/user/.kube/config"] }

/-- A config with a store of the given kind that is explicitly not required,
followed by the filesystem store `local`. -/
def configWithOptional (kind : StoreKind) : Config :=
  { RefreshIndexAfter := none
    KubeconfigStores :=
      [{ ID := some "cloud", Kind := kind, Required := some false }, localStore] }

/-- A config with the filesystem store `local` only. -/
def configWithLocal : Config :=
  { RefreshIndexAfter := none, KubeconfigStores := [localStore] }

/-- A value of `KUBECONFIG` with four entries: a new kubeconfig, a temporary
file, an empty entry and the path of the store `local`. -/
def sampleKubeconfigEnv : String :=
  "/home/user/.kube/a.yaml:/tmp/switch.tmp::/home/user/.kube/config"

/-- The store that the flag and the environment give for
`sampleKubeconfigEnv`. -/
def sampleEnvStore : KubeconfigStore :=
  { ID := some "env-and-flag"
    Kind := "filesystem"
    KubeconfigName := some "config"
    Paths := ["/home/user/.kube/a.yaml"]
    ShowPrefix := some false }

/-- The state directory holding the fresh vault state file of store `s1` and
its index file. -/
def vaultIndexAndState : FS :=
  vaultStateOnly.set "/state/switch.s1.index"
    (.file "kind: vault\ncontextToPathMapping:\n  dev: /home/user/.kube/dev.yaml\n" true)

/-- The state directory holding the index and state files of the stores `s1`
and `s2`. -/
def twoStores : FS :=
  (((emptyStateDir.set "/state/switch.s1.index" (.file "kind: vault\n" true)).set
      "/state/switch.s1.index.state" (.file "kind: vault\n" true)).set
      "/state/switch.s2.index" (.file "kind: filesystem\n" true)).set
      "/state/switch.s2.index.state" (.file "kind: filesystem\n" true)

/-! ## Paths, `New` and `Write` step by step -/

/-- A file of the store is never the state directory itself. -/
theorem sprintfPath_ne_dir (dir id name : String) : sprintfPath dir id name ≠ dir := by
  intro h
  have hlen := congrArg String.length h
  simp only [sprintfPath, String.length_append] at hlen
  have h8 : "/switch.".length = 8 := by decide
  omega

/-- `loadFromFile` reads nothing of the SearchIndex but the index path. -/
theorem loadFromFile_congr (y : Yaml) (fs : FS) (i j : SearchIndex)
    (h : i.indexFilepath = j.indexFilepath) :
    i.loadFromFile y fs = j.loadFromFile y fs := by
  simp [SearchIndex.loadFromFile, h]

/-- `New` when the state directory is there (the stat does not report
not-exist): no directory is made and the outcome is that of the load. -/
theorem new_of_dir_present (y : Yaml) (fs : FS) (k : StoreKind) (dir id : String)
    (hdir : osStat fs dir ≠ some .notExist) :
    New y fs k dir id =
      match (SearchIndex.unloaded k dir id).loadFromFile y fs with
      | .error err =>
        if !err.isNotExist then (.error err, fs) else (.ok (SearchIndex.unloaded k dir id), fs)
      | .ok c => (.ok { SearchIndex.unloaded k dir id with content := c }, fs) := by
  unfold New
  cases hst : osStat fs dir with
  | none => simp [SearchIndex.unloaded]
  | some e =>
    cases e with
    | notExist => exact absurd hst hdir
    | os => simp [Error.isNotExist, SearchIndex.unloaded]
    | yaml m => simp [Error.isNotExist, SearchIndex.unloaded]
    | errorf m => simp [Error.isNotExist, SearchIndex.unloaded]

/-- `New` when the state directory is missing and can be made: the directory
is made and `New` goes on as if it had been there. -/
theorem new_of_dir_made (y : Yaml) (fs : FS) (k : StoreKind) (dir id : String)
    (hdir : fs dir = .absent true) :
    New y fs k dir id = New y (fs.set dir .dir) k dir id := by
  have hpresent : osStat (fs.set dir .dir) dir ≠ some .notExist := by
    simp [osStat, FS.set]
  rw [new_of_dir_present y (fs.set dir .dir) k dir id hpresent]
  unfold New
  simp [osStat, osMkdir, hdir, Error.isNotExist, SearchIndex.unloaded]

/-- What a successful `New` returns and leaves behind: the state directory is
there, every other path is untouched, the SearchIndex carries the two paths
and the kind, and its content is what the load found (nil when the index file
does not exist). -/
theorem new_ok_spec (y : Yaml) (fs fs2 : FS) (k : StoreKind) (dir id : String)
    (i : SearchIndex) (h : New y fs k dir id = (.ok i, fs2)) :
    osStat fs2 dir ≠ some .notExist ∧ (∀ q, q ≠ dir → fs2 q = fs q) ∧
    i.indexFilepath = sprintfPath dir id indexFileName ∧
    i.indexStateFilepath = sprintfPath dir id indexStateFileName ∧
    i.kubeconfigStoreKind = k ∧
    (((SearchIndex.unloaded k dir id).loadFromFile y fs2 = .error .notExist ∧ i.content = none) ∨
      (SearchIndex.unloaded k dir id).loadFromFile y fs2 = .ok i.content) := by
  have tail : ∀ fs1 : FS, osStat fs1 dir ≠ some .notExist → New y fs1 k dir id = (.ok i, fs2) →
      fs2 = fs1 ∧
      i.indexFilepath = sprintfPath dir id indexFileName ∧
      i.indexStateFilepath = sprintfPath dir id indexStateFileName ∧
      i.kubeconfigStoreKind = k ∧
      (((SearchIndex.unloaded k dir id).loadFromFile y fs1 = .error .notExist ∧ i.content = none) ∨
        (SearchIndex.unloaded k dir id).loadFromFile y fs1 = .ok i.content) := by
    intro fs1 hdir hnew
    rw [new_of_dir_present y fs1 k dir id hdir] at hnew
    cases hload : (SearchIndex.unloaded k dir id).loadFromFile y fs1 with
    | error err =>
      rw [hload] at hnew
      cases err with
      | notExist =>
        simp only [Error.isNotExist, Bool.not_true, Bool.false_eq_true, if_false,
          Prod.mk.injEq, Except.ok.injEq] at hnew
        obtain ⟨hi, hfs⟩ := hnew
        subst hi hfs
        simp [SearchIndex.unloaded]
      | os => simp [Error.isNotExist] at hnew
      | yaml m => simp [Error.isNotExist] at hnew
      | errorf m => simp [Error.isNotExist] at hnew
    | ok c =>
      rw [hload] at hnew
      simp only [Prod.mk.injEq, Except.ok.injEq] at hnew
      obtain ⟨hi, hfs⟩ := hnew
      subst hi hfs
      simp [SearchIndex.unloaded]
  cases hd : fs dir with
  | absent c =>
    cases c with
    | true =>
      rw [new_of_dir_made y fs k dir id hd] at h
      have hpresent : osStat (fs.set dir .dir) dir ≠ some .notExist := by
        simp [osStat, FS.set]
      obtain ⟨hfs, rest⟩ := tail _ hpresent h
      subst hfs
      refine ⟨hpresent, ?_, rest⟩
      intro q hq
      simp [FS.set, hq]
    | false =>
      simp [New, osStat, osMkdir, hd, Error.isNotExist] at h
  | file content readable =>
    have hpresent : osStat fs dir ≠ some .notExist := by simp [osStat, hd]
    obtain ⟨hfs, rest⟩ := tail _ hpresent h
    subst hfs
    exact ⟨hpresent, fun _ _ => rfl, rest⟩
  | dir =>
    have hpresent : osStat fs dir ≠ some .notExist := by simp [osStat, hd]
    obtain ⟨hfs, rest⟩ := tail _ hpresent h
    subst hfs
    exact ⟨hpresent, fun _ _ => rfl, rest⟩
  | denied =>
    have hpresent : osStat fs dir ≠ some .notExist := by simp [osStat, hd]
    obtain ⟨hfs, rest⟩ := tail _ hpresent h
    subst hfs
    exact ⟨hpresent, fun _ _ => rfl, rest⟩

/-- What a successful `Write` leaves behind: the index file holds the
marshalled document, every other path is untouched. -/
theorem write_ok_fs (y : Yaml) (fs fs1 : FS) (w : SearchIndex) (idx : Index)
    (h : w.Write y fs idx = (none, fs1)) :
    ∃ doc, y.marshalIndex idx = .ok doc ∧ fs1 w.indexFilepath = .file doc true ∧
      ∀ q, q ≠ w.indexFilepath → fs1 q = fs q := by
  unfold SearchIndex.Write at h
  cases hc : osCreate fs w.indexFilepath with
  | mk e fs0 =>
    rw [hc] at h
    cases e with
    | some err => simp at h
    | none =>
      have hfs0 : fs0 = fs.set w.indexFilepath (.file "" true) := by
        unfold osCreate at hc
        split at hc <;> simp_all
      cases hm : y.marshalIndex idx with
      | error err => rw [hm] at h; simp at h
      | ok doc =>
        rw [hm] at h
        simp only [fileWrite, Prod.mk.injEq, true_and] at h
        subst h hfs0
        refine ⟨doc, rfl, by simp [FS.set], ?_⟩
        intro q hq
        simp [FS.set, hq]

/-- The load of an index file that holds a document which is not empty. -/
theorem loadFromFile_of_document (y : Yaml) (fs : FS) (i : SearchIndex) (doc : String)
    (hfile : fs i.indexFilepath = .file doc true) (hlen : doc.length ≠ 0) :
    i.loadFromFile y fs =
      match y.unmarshalIndex doc with
      | .error _ => .error (.errorf "could not unmarshal index file")
      | .ok index => .ok index := by
  simp [SearchIndex.loadFromFile, osStat, osReadFile, hfile, hlen]

/-- `ShouldBeUsed` on a loaded state of the bound kind with the effective
refresh interval `r`: the comparison of the clock with the end of the
window. -/
theorem shouldBeUsed_of_loaded_state (y : Yaml) (fs : FS) (i : SearchIndex)
    (config : Option Config) (storeLocal : Option Duration) (now : Time)
    (st : IndexState) (r : Duration)
    (hstate : i.getIndexState y fs = .ok (some st))
    (hkind : st.Kind = i.kubeconfigStoreKind)
    (hr : storeLocal = some r ∨
      (storeLocal = none ∧ ∃ c, config = some c ∧ c.RefreshIndexAfter = some r)) :
    i.ShouldBeUsed y fs config storeLocal now = (decide (now < st.LastUpdateTime + r), none) := by
  rcases hr with h | ⟨h, c, hc, hcr⟩
  · subst h
    simp [SearchIndex.ShouldBeUsed, hstate, hkind, Time.Before, Time.UTC, Time.Add]
  · subst h hc
    simp [SearchIndex.ShouldBeUsed, hstate, hkind, hcr, Time.Before, Time.UTC, Time.Add]

/-- `getIndexState` reads nothing but the state path of the SearchIndex and
what the file system holds there. -/
theorem getIndexState_congr (y : Yaml) (fs fs3 : FS) (i j : SearchIndex)
    (hpath : j.indexStateFilepath = i.indexStateFilepath)
    (hfile : fs3 i.indexStateFilepath = fs i.indexStateFilepath) :
    j.getIndexState y fs3 = i.getIndexState y fs := by
  simp [SearchIndex.getIndexState, osStat, osReadFile, hpath, hfile]

/-- `ShouldBeUsed` reads nothing but the state file, the state path and the
bound kind: neither the index file nor the loaded content. -/
theorem shouldBeUsed_congr (y : Yaml) (fs fs3 : FS) (i j : SearchIndex)
    (hpath : j.indexStateFilepath = i.indexStateFilepath)
    (hkind : j.kubeconfigStoreKind = i.kubeconfigStoreKind)
    (hfile : fs3 i.indexStateFilepath = fs i.indexStateFilepath)
    (config : Option Config) (storeLocal : Option Duration) (now : Time) :
    j.ShouldBeUsed y fs3 config storeLocal now = i.ShouldBeUsed y fs config storeLocal now := by
  unfold SearchIndex.ShouldBeUsed
  rw [getIndexState_congr y fs fs3 i j hpath hfile, hkind]

/-! ## Staleness decision -/

/-- C1. When the state file is present, parses and records the kind the
SearchIndex is bound to, and `r` is the effective refresh interval (the
per-store one, or the global one when no per-store one is given),
`ShouldBeUsed` returns `(true, nil)` exactly when `now < t + r`, and
`(false, nil)` at `now = t + r` and later. -/
theorem shouldBeUsed_true_iff_inside_window (y : Yaml) (fs : FS) (i : SearchIndex)
    (config : Option Config) (storeLocal : Option Duration) (now : Time)
    (st : IndexState) (r : Duration)
    (hstate : i.getIndexState y fs = .ok (some st))
    (hkind : st.Kind = i.kubeconfigStoreKind)
    (hr : storeLocal = some r ∨
      (storeLocal = none ∧ ∃ c, config = some c ∧ c.RefreshIndexAfter = some r)) :
    (i.ShouldBeUsed y fs config storeLocal now = (true, none) ↔ now < st.LastUpdateTime + r) ∧
    (st.LastUpdateTime + r ≤ now → i.ShouldBeUsed y fs config storeLocal now = (false, none)) := by
  have key : i.ShouldBeUsed y fs config storeLocal now
      = (decide (now < st.LastUpdateTime + r), none) := by
    rcases hr with h | ⟨h, c, hc, hcr⟩
    · subst h
      simp [SearchIndex.ShouldBeUsed, hstate, hkind, Time.Before, Time.UTC, Time.Add]
    · subst h hc
      simp [SearchIndex.ShouldBeUsed, hstate, hkind, hcr, Time.Before, Time.UTC, Time.Add]
  rw [key]
  constructor
  · simp
  · intro h
    have : ¬ now < st.LastUpdateTime + r := not_lt.mpr h
    simp [this]

/-- Scenario B and C of the spec: a vault state written 10 seconds ago with a
global interval of one minute is fresh, one written 2 minutes ago is not. -/
theorem shouldBeUsed_true_iff_inside_window_witness :
    ((sampleSearchIndex "vault").ShouldBeUsed sampleYaml vaultStateOnly
        (some { RefreshIndexAfter := some minute }) none (sampleInstant + 10 * second)
        = (true, none)
      ↔ sampleInstant + 10 * second < sampleInstant + minute) ∧
    (sampleSearchIndex "vault").ShouldBeUsed sampleYaml vaultStateOnly
        (some { RefreshIndexAfter := some minute }) none (sampleInstant + 10 * second)
        = (true, none) ∧
    (sampleSearchIndex "vault").ShouldBeUsed sampleYaml vaultStateOnly
        (some { RefreshIndexAfter := some minute }) none (sampleInstant + 2 * minute)
        = (false, none) :=
  ⟨(shouldBeUsed_true_iff_inside_window sampleYaml vaultStateOnly (sampleSearchIndex "vault")
      (some { RefreshIndexAfter := some minute }) none (sampleInstant + 10 * second)
      { Kind := "vault", LastUpdateTime := sampleInstant } minute
      (by decide) (by decide) (Or.inr ⟨rfl, _, rfl, rfl⟩)).1,
   by decide, by decide⟩

/-- C2. When the state file records a kind other than the one the SearchIndex
is bound to, `ShouldBeUsed` returns `(false, nil)`, whatever the timestamp,
the current time and the global and per-store refresh intervals are. -/
theorem shouldBeUsed_false_of_foreign_state_kind (y : Yaml) (fs : FS) (i : SearchIndex)
    (config : Option Config) (storeLocal : Option Duration) (now : Time) (st : IndexState)
    (hstate : i.getIndexState y fs = .ok (some st))
    (hkind : st.Kind ≠ i.kubeconfigStoreKind) :
    i.ShouldBeUsed y fs config storeLocal now = (false, none) := by
  simp [SearchIndex.ShouldBeUsed, hstate, hkind]

/-- A filesystem store reading the fresh state file of a vault store, with
both intervals set to a minute: not used. -/
theorem shouldBeUsed_false_of_foreign_state_kind_witness :
    (sampleSearchIndex "filesystem").getIndexState sampleYaml vaultStateOnly
        = .ok (some { Kind := "vault", LastUpdateTime := sampleInstant }) ∧
    (sampleSearchIndex "filesystem").ShouldBeUsed sampleYaml vaultStateOnly
        (some { RefreshIndexAfter := some minute }) (some minute) (sampleInstant + second)
        = (false, none) :=
  ⟨by decide,
   shouldBeUsed_false_of_foreign_state_kind sampleYaml vaultStateOnly
      (sampleSearchIndex "filesystem") (some { RefreshIndexAfter := some minute }) (some minute)
      (sampleInstant + second) { Kind := "vault", LastUpdateTime := sampleInstant }
      (by decide) (by decide)⟩

/-- C3. Without a per-store interval and without a global one (no config, or
a config whose `RefreshIndexAfter` is nil), `ShouldBeUsed` returns false for
every file system, every bound kind and every current time. -/
theorem shouldBeUsed_false_without_interval (y : Yaml) (fs : FS) (i : SearchIndex)
    (now : Time) :
    (i.ShouldBeUsed y fs none none now).1 = false ∧
    ∀ c : Config, (i.ShouldBeUsed y fs (some { c with RefreshIndexAfter := none }) none now).1
      = false := by
  refine ⟨?_, fun c => ?_⟩
  · unfold SearchIndex.ShouldBeUsed
    cases i.getIndexState y fs with
    | error e => rfl
    | ok o =>
      cases o with
      | none => rfl
      | some st => by_cases h : st.Kind = i.kubeconfigStoreKind <;> simp [h]
  · unfold SearchIndex.ShouldBeUsed
    cases i.getIndexState y fs with
    | error e => rfl
    | ok o =>
      cases o with
      | none => rfl
      | some st => by_cases h : st.Kind = i.kubeconfigStoreKind <;> simp [h]

/-- C4. The state file is loaded and records the bound kind and the
timestamp `t`. With a per-store interval `r`, `ShouldBeUsed` decides with `r`
alone:
it returns `(true, nil)` exactly when `now < t + r`, whatever the config and
its global interval are, so the result is the same for any two configs and
the same as without a config. With a global interval `g` alone it decides
with `g`: `(true, nil)` exactly when `now < t + g`. -/
theorem shouldBeUsed_store_interval_takes_precedence (y : Yaml) (fs : FS) (i : SearchIndex)
    (now : Time) (st : IndexState)
    (hstate : i.getIndexState y fs = .ok (some st))
    (hkind : st.Kind = i.kubeconfigStoreKind)
    (r : Duration) (g1 g2 : Option Config) :
    i.ShouldBeUsed y fs g1 (some r) now = (decide (now < st.LastUpdateTime + r), none) ∧
    i.ShouldBeUsed y fs g1 (some r) now = i.ShouldBeUsed y fs g2 (some r) now ∧
    i.ShouldBeUsed y fs g1 (some r) now = i.ShouldBeUsed y fs none (some r) now ∧
    ∀ (g : Duration) (c : Config),
      i.ShouldBeUsed y fs (some { c with RefreshIndexAfter := some g }) none now
          = (decide (now < st.LastUpdateTime + g), none) ∧
      i.ShouldBeUsed y fs (some { c with RefreshIndexAfter := some g }) none now
          = i.ShouldBeUsed y fs none (some g) now := by
  have local_wins : ∀ (cfg : Option Config) (d : Duration),
      i.ShouldBeUsed y fs cfg (some d) now = (decide (now < st.LastUpdateTime + d), none) :=
    fun cfg d => shouldBeUsed_of_loaded_state y fs i cfg (some d) now st d hstate hkind
      (Or.inl rfl)
  refine ⟨local_wins g1 r, ?_, ?_, fun g c => ⟨?_, ?_⟩⟩
  · rw [local_wins g1 r, local_wins g2 r]
  · rw [local_wins g1 r, local_wins none r]
  · exact shouldBeUsed_of_loaded_state y fs i _ none now st g hstate hkind
      (Or.inr ⟨rfl, _, rfl, rfl⟩)
  · rw [local_wins none g]
    exact shouldBeUsed_of_loaded_state y fs i _ none now st g hstate hkind
      (Or.inr ⟨rfl, _, rfl, rfl⟩)

/-- The vault state ten seconds old, a global interval of one minute and a
per-store interval of five seconds: the per-store interval decides, the index
is not used; with the global interval alone it is. -/
theorem shouldBeUsed_store_interval_takes_precedence_witness :
    (sampleSearchIndex "vault").ShouldBeUsed sampleYaml vaultStateOnly
        (some { RefreshIndexAfter := some minute }) (some (5 * second))
        (sampleInstant + 10 * second)
      = (decide (sampleInstant + 10 * second < sampleInstant + 5 * second), none) ∧
    (sampleSearchIndex "vault").ShouldBeUsed sampleYaml vaultStateOnly
        (some { RefreshIndexAfter := some minute }) (some (5 * second))
        (sampleInstant + 10 * second) = (false, none) ∧
    (sampleSearchIndex "vault").ShouldBeUsed sampleYaml vaultStateOnly
        (some { RefreshIndexAfter := some minute }) none (sampleInstant + 10 * second)
      = (true, none) :=
  ⟨(shouldBeUsed_store_interval_takes_precedence sampleYaml vaultStateOnly
      (sampleSearchIndex "vault") (sampleInstant + 10 * second)
      { Kind := "vault", LastUpdateTime := sampleInstant } (by decide) (by decide)
      (5 * second) (some { RefreshIndexAfter := some minute }) none).1,
   by decide, by decide⟩

/-- C5. `ShouldBeUsed` returns `(false, nil)` when the state file does not
exist. It returns an error exactly when the state file is there (the stat does
not report not-exist) and either cannot be read or is not empty and rejected
by the YAML library; with an error the boolean is false. -/
theorem shouldBeUsed_error_iff_state_file_corrupt (y : Yaml) (fs : FS) (i : SearchIndex)
    (config : Option Config) (storeLocal : Option Duration) (now : Time) :
    (osStat fs i.indexStateFilepath = some .notExist →
      i.ShouldBeUsed y fs config storeLocal now = (false, none)) ∧
    ((i.ShouldBeUsed y fs config storeLocal now).2 ≠ none ↔
      osStat fs i.indexStateFilepath ≠ some .notExist ∧
      ((∃ e, osReadFile fs i.indexStateFilepath = .error e) ∨
       (∃ bytes e, osReadFile fs i.indexStateFilepath = .ok bytes ∧ bytes.length ≠ 0 ∧
          y.unmarshalState bytes = .error e))) ∧
    ((i.ShouldBeUsed y fs config storeLocal now).2 ≠ none →
      (i.ShouldBeUsed y fs config storeLocal now).1 = false) := by
  have hno : ∀ o : Option IndexState, i.getIndexState y fs = .ok o →
      (i.ShouldBeUsed y fs config storeLocal now).2 = none := by
    intro o ho
    unfold SearchIndex.ShouldBeUsed
    rw [ho]
    cases o with
    | none => rfl
    | some st =>
      by_cases h : st.Kind = i.kubeconfigStoreKind
      · simp only [h, ne_eq, not_true_eq_false, if_false]
        split <;> rfl
      · simp [h]
  have herr : ∀ e : Error, i.getIndexState y fs = .error e →
      i.ShouldBeUsed y fs config storeLocal now
        = (false, some (.errorf "failed to get index state")) := by
    intro e he
    unfold SearchIndex.ShouldBeUsed
    rw [he]
  refine ⟨?_, ?_, ?_⟩
  · intro h
    simp [SearchIndex.ShouldBeUsed, SearchIndex.getIndexState, h, Error.isNotExist]
  · cases hfs : fs i.indexStateFilepath with
    | absent c =>
      have hg : i.getIndexState y fs = .ok none := by
        simp [SearchIndex.getIndexState, osStat, hfs, Error.isNotExist]
      simp [hno _ hg, osStat, hfs]
    | denied =>
      have hg : i.getIndexState y fs = .error .os := by
        simp [SearchIndex.getIndexState, osStat, hfs, Error.isNotExist]
      simp [herr _ hg, osStat, osReadFile, hfs]
    | dir =>
      have hg : i.getIndexState y fs = .error .os := by
        simp [SearchIndex.getIndexState, osStat, osReadFile, hfs]
      simp [herr _ hg, osStat, osReadFile, hfs]
    | file content readable =>
      cases readable with
      | false =>
        have hg : i.getIndexState y fs = .error .os := by
          simp [SearchIndex.getIndexState, osStat, osReadFile, hfs]
        simp [herr _ hg, osStat, osReadFile, hfs]
      | true =>
        by_cases hlen : content.length = 0
        · have hg : i.getIndexState y fs = .ok (some IndexState.zero) := by
            simp [SearchIndex.getIndexState, osStat, osReadFile, hfs, hlen]
          simp [hno _ hg, osStat, osReadFile, hfs, hlen]
        · cases hu : y.unmarshalState content with
          | error e =>
            have hg : i.getIndexState y fs
                = .error (.errorf "could not unmarshal index state file") := by
              simp [SearchIndex.getIndexState, osStat, osReadFile, hfs, hlen, hu]
            simp [herr _ hg, osStat, osReadFile, hfs, hlen, hu]
          | ok o =>
            have hg : i.getIndexState y fs = .ok o := by
              simp [SearchIndex.getIndexState, osStat, osReadFile, hfs, hlen, hu]
            simp [hno _ hg, osStat, osReadFile, hfs, hlen, hu]
  · intro h
    cases hg : i.getIndexState y fs with
    | error e => rw [herr e hg]
    | ok o => exact absurd (hno o hg) h

/-- Scenario A of the spec (a filesystem store without a state file), and a
state file that is not YAML. -/
theorem shouldBeUsed_error_iff_state_file_corrupt_witness :
    osStat emptyStateDir (sampleSearchIndex "filesystem").indexStateFilepath = some .notExist ∧
    (sampleSearchIndex "filesystem").ShouldBeUsed sampleYaml emptyStateDir
        (some { RefreshIndexAfter := some minute }) none sampleInstant = (false, none) ∧
    ((sampleSearchIndex "filesystem").ShouldBeUsed sampleYaml brokenStateOnly
        (some { RefreshIndexAfter := some minute }) none sampleInstant).2 ≠ none ∧
    ((sampleSearchIndex "filesystem").ShouldBeUsed sampleYaml brokenStateOnly
        (some { RefreshIndexAfter := some minute }) none sampleInstant).1 = false :=
  ⟨by decide,
   (shouldBeUsed_error_iff_state_file_corrupt sampleYaml emptyStateDir
      (sampleSearchIndex "filesystem") (some { RefreshIndexAfter := some minute }) none
      sampleInstant).1 (by decide),
   by decide,
   (shouldBeUsed_error_iff_state_file_corrupt sampleYaml brokenStateOnly
      (sampleSearchIndex "filesystem") (some { RefreshIndexAfter := some minute }) none
      sampleInstant).2.2 (by decide)⟩

/-! ## Kind isolation -/

/-- C6, as stated, fails: the index file of store `s1` is written with kind
`vault`, the state file next to it records kind `filesystem`; the SearchIndex
that `New` creates for kind `filesystem` has `HasKind` false, and yet
`ShouldBeUsed` returns `(true, nil)` ten seconds after the state's
timestamp. -/
theorem kind_isolation_counterexample :
    ("vault" : StoreKind) ≠ "filesystem" ∧
    ((sampleSearchIndex "vault").Write sampleYaml filesystemStateOnly sampleIndex).1 = none ∧
    (New sampleYaml
        ((sampleSearchIndex "vault").Write sampleYaml filesystemStateOnly sampleIndex).2
        "filesystem" "/state" "s1").1
      = .ok { sampleSearchIndex "filesystem" with content := some sampleIndex } ∧
    SearchIndex.HasKind { sampleSearchIndex "filesystem" with content := some sampleIndex }
        "filesystem" = false ∧
    SearchIndex.ShouldBeUsed sampleYaml
        ((sampleSearchIndex "vault").Write sampleYaml filesystemStateOnly sampleIndex).2
        { sampleSearchIndex "filesystem" with content := some sampleIndex }
        (some { RefreshIndexAfter := some minute }) none (sampleInstant + 10 * second)
      = (true, none) := by
  refine ⟨by decide, by decide, by decide, by decide, by decide⟩

/-- C6, amended. The index file is written with kind `A` and a SearchIndex
bound to another kind `B` is created over it with `New`. Then `HasKind B` is
false, whatever the state file holds; and whenever the state file does not
record kind `B` itself (it is missing, unreadable, or records another kind
such as `A`), `ShouldBeUsed` does not return true, whatever the timestamp,
the current time and the refresh intervals are. -/
theorem kind_isolation_of_index_and_state (y : Yaml) (A B : StoreKind) (hAB : A ≠ B)
    (fs fs1 fs2 : FS) (dir id : String) (w : SearchIndex)
    (hw : w.indexFilepath = sprintfPath dir id indexFileName)
    (idx : Index) (hA : idx.Kind = A) (hback : y.ReadsBackIndex idx)
    (hwrite : w.Write y fs idx = (none, fs1))
    (i : SearchIndex) (hnew : New y fs1 B dir id = (.ok i, fs2)) :
    i.HasKind B = false ∧
    ((∀ st, i.getIndexState y fs2 = .ok (some st) → st.Kind ≠ B) →
      ∀ (config : Option Config) (storeLocal : Option Duration) (now : Time),
        (i.ShouldBeUsed y fs2 config storeLocal now).1 = false) := by
  obtain ⟨doc, hdoc, hfile, -⟩ := write_ok_fs y fs fs1 w idx hwrite
  obtain ⟨doc2, hdoc2, hlen, back, hun, hkind, -⟩ := hback
  rw [hdoc] at hdoc2
  cases hdoc2
  obtain ⟨-, hsame, -, -, hk, hcontent⟩ := new_ok_spec y fs1 fs2 B dir id i hnew
  have hfile2 : fs2 (SearchIndex.unloaded B dir id).indexFilepath = .file doc true := by
    show fs2 (sprintfPath dir id indexFileName) = _
    rw [hsame _ (sprintfPath_ne_dir dir id indexFileName), ← hw]
    exact hfile
  have hload := loadFromFile_of_document y fs2 (SearchIndex.unloaded B dir id) doc hfile2 hlen
  rw [hun] at hload
  have hc : i.content = some back := by
    rcases hcontent with ⟨h1, -⟩ | h1
    · rw [hload] at h1
      cases h1
    · rw [hload] at h1
      simp only [Except.ok.injEq] at h1
      exact h1.symm
  constructor
  · have hne : back.Kind ≠ B := by
      rw [hkind, hA]
      exact hAB
    simp [SearchIndex.HasKind, hc, hne]
  · intro hstate config storeLocal now
    unfold SearchIndex.ShouldBeUsed
    cases hg : i.getIndexState y fs2 with
    | error e => rfl
    | ok o =>
      cases o with
      | none => rfl
      | some st =>
        have hne : st.Kind ≠ i.kubeconfigStoreKind := by
          rw [hk]
          exact hstate st hg
        simp [hne]

/-- The index file of store `s1` is written for the vault kind. Next to a
state file of the filesystem kind (the input of the counterexample) a
filesystem SearchIndex made over it has `HasKind` false; next to a state file
of the vault kind it has `HasKind` false and is not used, ten seconds after
the state's timestamp. -/
theorem kind_isolation_of_index_and_state_witness :
    ("vault" : StoreKind) ≠ "filesystem" ∧
    (New sampleYaml
        ((sampleSearchIndex "vault").Write sampleYaml filesystemStateOnly sampleIndex).2
        "filesystem" "/state" "s1").1
      = .ok { sampleSearchIndex "filesystem" with content := some sampleIndex } ∧
    SearchIndex.HasKind { sampleSearchIndex "filesystem" with content := some sampleIndex }
        "filesystem" = false ∧
    (SearchIndex.ShouldBeUsed sampleYaml
        (New sampleYaml ((sampleSearchIndex "vault").Write sampleYaml vaultStateOnly sampleIndex).2
          "filesystem" "/state" "s1").2
        { sampleSearchIndex "filesystem" with content := some sampleIndex }
        (some { RefreshIndexAfter := some minute }) none (sampleInstant + 10 * second)).1
      = false :=
  ⟨by decide, by decide,
   (kind_isolation_of_index_and_state sampleYaml "vault" "filesystem" (by decide)
      filesystemStateOnly
      ((sampleSearchIndex "vault").Write sampleYaml filesystemStateOnly sampleIndex).2
      (New sampleYaml
          ((sampleSearchIndex "vault").Write sampleYaml filesystemStateOnly sampleIndex).2
          "filesystem" "/state" "s1").2
      "/state" "s1" (sampleSearchIndex "vault") (by decide) sampleIndex rfl
      ⟨"kind: vault\ncontextToPathMapping:\n  dev: /home/user/.kube/dev.yaml\n", by decide,
        by decide, sampleIndex, by decide, rfl, fun _ => rfl⟩
      (Prod.ext (by decide) rfl)
      { sampleSearchIndex "filesystem" with content := some sampleIndex }
      (Prod.ext (by decide) rfl)).1,
   (kind_isolation_of_index_and_state sampleYaml "vault" "filesystem" (by decide)
      vaultStateOnly ((sampleSearchIndex "vault").Write sampleYaml vaultStateOnly sampleIndex).2
      (New sampleYaml ((sampleSearchIndex "vault").Write sampleYaml vaultStateOnly sampleIndex).2
          "filesystem" "/state" "s1").2
      "/state" "s1" (sampleSearchIndex "vault") (by decide) sampleIndex rfl
      ⟨"kind: vault\ncontextToPathMapping:\n  dev: /home/user/.kube/dev.yaml\n", by decide,
        by decide, sampleIndex, by decide, rfl, fun _ => rfl⟩
      (Prod.ext (by decide) rfl)
      { sampleSearchIndex "filesystem" with content := some sampleIndex }
      (Prod.ext (by decide) rfl)).2
      (by
        intro st hst
        have hval : SearchIndex.getIndexState sampleYaml
            (New sampleYaml
              ((sampleSearchIndex "vault").Write sampleYaml vaultStateOnly sampleIndex).2
              "filesystem" "/state" "s1").2
            { sampleSearchIndex "filesystem" with content := some sampleIndex }
            = .ok (some { Kind := "vault", LastUpdateTime := sampleInstant }) := by decide
        rw [hval] at hst
        cases hst
        decide)
      (some { RefreshIndexAfter := some minute }) none (sampleInstant + 10 * second)⟩

/-! ## Loading and the round trip -/

/-- C7. A SearchIndex made by `New` writes the index `idx` with success; the
YAML library keeps its contract at `idx`. Then a fresh `New` on the same
state directory and store id (for any kind) succeeds without touching the
file system, and the new SearchIndex has `HasContent` true, `HasKind idx.Kind`
true and a content that agrees with the mapping of `idx` under every key. -/
theorem write_then_new_round_trip (y : Yaml) (fs fs1 fs2 : FS) (k k2 : StoreKind)
    (dir id : String) (w : SearchIndex) (idx : Index)
    (hnew : New y fs k dir id = (.ok w, fs1))
    (hwrite : w.Write y fs1 idx = (none, fs2))
    (hback : y.ReadsBackIndex idx) :
    ∃ i, New y fs2 k2 dir id = (.ok i, fs2) ∧ i.HasContent = true ∧
      i.HasKind idx.Kind = true ∧
      ∀ key, i.GetContent.get key = idx.ContextToPathMapping.get key := by
  obtain ⟨hdir, -, hw, -, -, -⟩ := new_ok_spec y fs fs1 k dir id w hnew
  obtain ⟨doc, hdoc, hfile, hother⟩ := write_ok_fs y fs1 fs2 w idx hwrite
  obtain ⟨doc2, hdoc2, hlen, back, hun, hkind, hmap⟩ := hback
  rw [hdoc] at hdoc2
  cases hdoc2
  have hne : dir ≠ w.indexFilepath := by
    rw [hw]
    exact fun h => sprintfPath_ne_dir dir id indexFileName h.symm
  have hdir2 : osStat fs2 dir ≠ some .notExist := by
    unfold osStat
    rw [hother dir hne]
    exact hdir
  have hfile2 : fs2 (SearchIndex.unloaded k2 dir id).indexFilepath = .file doc true := by
    show fs2 (sprintfPath dir id indexFileName) = _
    rw [← hw]
    exact hfile
  have hload := loadFromFile_of_document y fs2 (SearchIndex.unloaded k2 dir id) doc hfile2 hlen
  rw [hun] at hload
  refine ⟨{ SearchIndex.unloaded k2 dir id with content := some back }, ?_, ?_, ?_, ?_⟩
  · rw [new_of_dir_present y fs2 k2 dir id hdir2, hload]
  · simp [SearchIndex.HasContent]
  · simp [SearchIndex.HasKind, hkind]
  · intro key
    simp only [SearchIndex.GetContent]
    exact hmap key

/-- Store `s1` under `/state`: `New` on the empty state directory, `Write` of
the sample index, and a fresh `New` that finds it again. -/
theorem write_then_new_round_trip_witness :
    ∃ i, New sampleYaml
        ((sampleSearchIndex "vault").Write sampleYaml emptyStateDir sampleIndex).2
        "vault" "/state" "s1"
      = (.ok i, ((sampleSearchIndex "vault").Write sampleYaml emptyStateDir sampleIndex).2) ∧
      i.HasContent = true ∧ i.HasKind "vault" = true ∧
      ∀ key, i.GetContent.get key = sampleIndex.ContextToPathMapping.get key :=
  write_then_new_round_trip sampleYaml emptyStateDir emptyStateDir
    ((sampleSearchIndex "vault").Write sampleYaml emptyStateDir sampleIndex).2
    "vault" "vault" "/state" "s1" (sampleSearchIndex "vault") sampleIndex
    (Prod.ext (by decide) rfl)
    (Prod.ext (by decide) rfl)
    ⟨"kind: vault\ncontextToPathMapping:\n  dev: /home/user/.kube/dev.yaml\n", by decide,
      by decide, sampleIndex, by decide, rfl, fun _ => rfl⟩

/-- C8. `New` on an existing state directory without an index file for the
store returns a SearchIndex and no error, with `HasContent` false and a nil
`GetContent`; `New` returns an error when the index file is there, is not
empty and is rejected by the YAML library; and after a successful `New`,
`HasContent` is true exactly when the index file was found, could be read and
was empty or gave an index when unmarshalled. -/
theorem new_content_iff_index_loaded (y : Yaml) (fs : FS) (k : StoreKind) (dir id : String) :
    (fs dir = .dir → osStat fs (sprintfPath dir id indexFileName) = some .notExist →
      ∃ i, New y fs k dir id = (.ok i, fs) ∧ i.HasContent = false ∧ i.GetContent = none) ∧
    (∀ doc e, fs (sprintfPath dir id indexFileName) = .file doc true → doc.length ≠ 0 →
      y.unmarshalIndex doc = .error e → ∃ err, (New y fs k dir id).1 = .error err) ∧
    (∀ i fs2, New y fs k dir id = (.ok i, fs2) →
      (i.HasContent = true ↔
        osStat fs (sprintfPath dir id indexFileName) = none ∧
        ∃ doc, osReadFile fs (sprintfPath dir id indexFileName) = .ok doc ∧
          (doc.length = 0 ∨ ∃ idx, y.unmarshalIndex doc = .ok (some idx)))) := by
  refine ⟨?_, ?_, ?_⟩
  · intro hdir hidx
    have hpresent : osStat fs dir ≠ some .notExist := by simp [osStat, hdir]
    have hload : (SearchIndex.unloaded k dir id).loadFromFile y fs = .error .notExist := by
      have hidx2 : osStat fs (SearchIndex.unloaded k dir id).indexFilepath = some .notExist := hidx
      simp [SearchIndex.loadFromFile, hidx2]
    refine ⟨SearchIndex.unloaded k dir id, ?_, rfl, rfl⟩
    rw [new_of_dir_present y fs k dir id hpresent, hload]
    simp [Error.isNotExist]
  · intro doc e hfile hlen hun
    have corrupt : ∀ fs1 : FS, osStat fs1 dir ≠ some .notExist →
        fs1 (sprintfPath dir id indexFileName) = .file doc true →
        ∃ err, (New y fs1 k dir id).1 = .error err := by
      intro fs1 hpresent hfile1
      have hload := loadFromFile_of_document y fs1 (SearchIndex.unloaded k dir id) doc hfile1 hlen
      rw [hun] at hload
      refine ⟨.errorf "could not unmarshal index file", ?_⟩
      rw [new_of_dir_present y fs1 k dir id hpresent, hload]
      simp [Error.isNotExist]
    cases hd : fs dir with
    | absent c =>
      cases c with
      | true =>
        rw [new_of_dir_made y fs k dir id hd]
        refine corrupt _ (by simp [osStat, FS.set]) ?_
        simp [FS.set, sprintfPath_ne_dir dir id indexFileName, hfile]
      | false =>
        exact ⟨.os, by simp [New, osStat, osMkdir, hd, Error.isNotExist]⟩
    | file content readable => exact corrupt fs (by simp [osStat, hd]) hfile
    | dir => exact corrupt fs (by simp [osStat, hd]) hfile
    | denied => exact corrupt fs (by simp [osStat, hd]) hfile
  · intro i fs2 hnew
    obtain ⟨-, hsame, -, -, -, hcontent⟩ := new_ok_spec y fs fs2 k dir id i hnew
    have hp : fs2 (sprintfPath dir id indexFileName) = fs (sprintfPath dir id indexFileName) :=
      hsame _ (sprintfPath_ne_dir dir id indexFileName)
    have hload : (SearchIndex.unloaded k dir id).loadFromFile y fs2
        = (SearchIndex.unloaded k dir id).loadFromFile y fs := by
      simp [SearchIndex.loadFromFile, SearchIndex.unloaded, osStat, osReadFile, hp]
    rw [hload] at hcontent
    cases hf : fs (sprintfPath dir id indexFileName) with
    | absent c =>
      have hl : (SearchIndex.unloaded k dir id).loadFromFile y fs = .error .notExist := by
        simp [SearchIndex.loadFromFile, SearchIndex.unloaded, osStat, hf]
      rw [hl] at hcontent
      have hc : i.content = none := by
        rcases hcontent with ⟨-, h⟩ | h
        · exact h
        · cases h
      simp [SearchIndex.HasContent, hc, osStat, hf]
    | denied =>
      have hl : (SearchIndex.unloaded k dir id).loadFromFile y fs = .error .os := by
        simp [SearchIndex.loadFromFile, SearchIndex.unloaded, osStat, hf]
      rw [hl] at hcontent
      rcases hcontent with ⟨h, -⟩ | h <;> cases h
    | dir =>
      have hl : (SearchIndex.unloaded k dir id).loadFromFile y fs
          = .error (.errorf "failed to read index file. File corrupt?") := by
        simp [SearchIndex.loadFromFile, SearchIndex.unloaded, osStat, osReadFile, hf]
      rw [hl] at hcontent
      rcases hcontent with ⟨h, -⟩ | h <;> cases h
    | file content readable =>
      cases readable with
      | false =>
        have hl : (SearchIndex.unloaded k dir id).loadFromFile y fs
            = .error (.errorf "failed to read index file. File corrupt?") := by
          simp [SearchIndex.loadFromFile, SearchIndex.unloaded, osStat, osReadFile, hf]
        rw [hl] at hcontent
        rcases hcontent with ⟨h, -⟩ | h <;> cases h
      | true =>
        by_cases hlen : content.length = 0
        · have hl : (SearchIndex.unloaded k dir id).loadFromFile y fs
              = .ok (some Index.zero) := by
            simp [SearchIndex.loadFromFile, SearchIndex.unloaded, osStat, osReadFile, hf, hlen]
          rw [hl] at hcontent
          have hc : i.content = some Index.zero := by
            rcases hcontent with ⟨h, -⟩ | h
            · cases h
            · simp only [Except.ok.injEq] at h
              exact h.symm
          simp [SearchIndex.HasContent, hc, osStat, osReadFile, hf, hlen]
        · have hl := loadFromFile_of_document y fs (SearchIndex.unloaded k dir id) content hf hlen
          cases hu : y.unmarshalIndex content with
          | error e =>
            rw [hu] at hl
            rw [hl] at hcontent
            rcases hcontent with ⟨h, -⟩ | h <;> cases h
          | ok o =>
            rw [hu] at hl
            rw [hl] at hcontent
            have hc : i.content = o := by
              rcases hcontent with ⟨h, -⟩ | h
              · cases h
              · simp only [Except.ok.injEq] at h
                exact h.symm
            cases o with
            | none => simp [SearchIndex.HasContent, hc, osStat, osReadFile, hf, hlen, hu]
            | some idx => simp [SearchIndex.HasContent, hc, osStat, osReadFile, hf, hlen, hu]

/-- Store `s1` under `/state`: without an index file, with an index file
that is not YAML, and with the sample index file. -/
theorem new_content_iff_index_loaded_witness :
    (emptyStateDir "/state" = .dir ∧
      ∃ i, New sampleYaml emptyStateDir "vault" "/state" "s1" = (.ok i, emptyStateDir) ∧
        i.HasContent = false ∧ i.GetContent = none) ∧
    (∃ err, (New sampleYaml brokenIndexOnly "vault" "/state" "s1").1 = .error err) ∧
    (SearchIndex.HasContent { sampleSearchIndex "vault" with content := some sampleIndex } = true ↔
      osStat indexOnly (sprintfPath "/state" "s1" indexFileName) = none ∧
      ∃ doc, osReadFile indexOnly (sprintfPath "/state" "s1" indexFileName) = .ok doc ∧
        (doc.length = 0 ∨ ∃ idx, sampleYaml.unmarshalIndex doc = .ok (some idx))) :=
  ⟨⟨by decide,
    (new_content_iff_index_loaded sampleYaml emptyStateDir "vault" "/state" "s1").1
      (by decide) (by decide)⟩,
   (new_content_iff_index_loaded sampleYaml brokenIndexOnly "vault" "/state" "s1").2.1
      "kind: [" (.yaml "cannot unmarshal") (by decide) (by decide) (by decide),
   (new_content_iff_index_loaded sampleYaml indexOnly "vault" "/state" "s1").2.2
      { sampleSearchIndex "vault" with content := some sampleIndex } indexOnly
      (Prod.ext (by decide) rfl)⟩

/-! ## Delete -/

/-- C9, at the failing input: only the state file of the store exists. The
first `Delete` already returns the not-exist error of `os.Remove` on the
index file and leaves the state file in place, so the second call fails the
same way. -/
theorem delete_twice_fails_with_state_file_only :
    ((sampleSearchIndex "vault").Delete vaultStateOnly).1 = some .notExist ∧
    ((sampleSearchIndex "vault").Delete vaultStateOnly).2 "/state/switch.s1.index.state"
      = vaultStateOnly "/state/switch.s1.index.state" ∧
    ((sampleSearchIndex "vault").Delete
        ((sampleSearchIndex "vault").Delete vaultStateOnly).2).1 = some .notExist := by
  refine ⟨by decide, by decide, by decide⟩

/-- C10, at the failing input: only the index file of the store exists.
`Delete` returns no error and the index file is still there with its
content. -/
theorem delete_keeps_index_file_without_state_file :
    ((sampleSearchIndex "vault").Delete indexOnly).1 = none ∧
    ((sampleSearchIndex "vault").Delete indexOnly).2 "/state/switch.s1.index"
      = .file "kind: vault\ncontextToPathMapping:\n  dev: /home/user/.kube/dev.yaml\n" true ∧
    osStat ((sampleSearchIndex "vault").Delete indexOnly).2 "/state/switch.s1.index" = none := by
  refine ⟨by decide, by decide, by decide⟩

/-! ## One pair of files per store -/

/-- The path of a store file determines the store id (for a fixed state
directory and file name). -/
theorem sprintfPath_id_injective (dir id1 id2 name : String)
    (h : sprintfPath dir id1 name = sprintfPath dir id2 name) : id1 = id2 := by
  have hd := congrArg String.data h
  simp only [sprintfPath, String.data_append] at hd
  have h1 := List.append_cancel_right hd
  have h2 := List.append_cancel_right h1
  have h3 := List.append_cancel_left h2
  exact String.ext h3

/-- An index file path is never a state file path, whatever the two store
ids are: the first ends in `x`, the second in `e`. -/
theorem index_path_ne_state_path (dir id1 id2 : String) :
    sprintfPath dir id1 indexFileName ≠ sprintfPath dir id2 indexStateFileName := by
  intro h
  have hd := congrArg (fun s : String => s.data.reverse) h
  simp only [sprintfPath, String.data_append, List.reverse_append, indexFileName,
    indexStateFileName] at hd
  have hi : "index".data.reverse = ['x', 'e', 'd', 'n', 'i'] := by decide
  have hs : "index.state".data.reverse
      = ['e', 't', 'a', 't', 's', '.', 'x', 'e', 'd', 'n', 'i'] := by decide
  rw [hi, hs] at hd
  simp at hd

/-- `Write` changes nothing but the index file of its store. -/
theorem write_frame (y : Yaml) (fs : FS) (i : SearchIndex) (idx : Index) (q : String)
    (hq : q ≠ i.indexFilepath) : (i.Write y fs idx).2 q = fs q := by
  unfold SearchIndex.Write osCreate fileWrite
  cases hfs : fs i.indexFilepath with
  | absent c =>
    cases c <;> cases hm : y.marshalIndex idx <;> simp [FS.set, hq]
  | file content r =>
    cases r <;> cases hm : y.marshalIndex idx <;> simp [FS.set, hq]
  | dir => rfl
  | denied => rfl

/-- `WriteState` changes nothing but the state file of its store. -/
theorem writeState_frame (y : Yaml) (fs : FS) (i : SearchIndex) (st : IndexState) (q : String)
    (hq : q ≠ i.indexStateFilepath) : (i.WriteState y fs st).2 q = fs q := by
  unfold SearchIndex.WriteState osCreate fileWrite
  cases hfs : fs i.indexStateFilepath with
  | absent c =>
    cases c <;> cases hm : y.marshalState st <;> simp [FS.set, hq]
  | file content r =>
    cases r <;> cases hm : y.marshalState st <;> simp [FS.set, hq]
  | dir => rfl
  | denied => rfl

/-- `os.Remove` changes nothing but the path it is given. -/
theorem osRemove_frame (fs : FS) (p q : String) (hq : q ≠ p) : (osRemove fs p).2 q = fs q := by
  unfold osRemove
  cases fs p <;> simp [FS.set, hq]

/-- `Delete` changes nothing but the two files of its store. -/
theorem delete_frame (fs : FS) (i : SearchIndex) (q : String)
    (hq1 : q ≠ i.indexFilepath) (hq2 : q ≠ i.indexStateFilepath) :
    (i.Delete fs).2 q = fs q := by
  unfold SearchIndex.Delete
  cases osStat fs i.indexStateFilepath with
  | some err => cases err <;> simp [Error.isNotExist]
  | none =>
    have h1 := osRemove_frame fs i.indexFilepath q hq1
    cases hr : osRemove fs i.indexFilepath with
    | mk e fs1 =>
      rw [hr] at h1
      cases e with
      | some err => exact h1
      | none =>
        have h2 := osRemove_frame fs1 i.indexStateFilepath q hq2
        cases hr2 : osRemove fs1 i.indexStateFilepath with
        | mk e2 fs2 =>
          rw [hr2] at h2
          simp only [hr2]
          cases e2 with
          | some err => exact h2.trans h1
          | none => exact h2.trans h1

/-- C12. For a fixed state directory the index file of a store is
`<dir>/switch.<storeId>.index` and its state file is
`<dir>/switch.<storeId>.index.state`; for two distinct store ids the four
paths are pairwise distinct; and `Write`, `WriteState` and `Delete` on the
SearchIndex that `New` made for the first store leave the index file and the
state file of the second store as they were, on every file system. -/
theorem store_files_independent (y : Yaml) (dir id1 id2 : String) (hid : id1 ≠ id2) :
    (sprintfPath dir id1 indexFileName = dir ++ "/switch." ++ id1 ++ ".index" ∧
      sprintfPath dir id1 indexStateFileName = dir ++ "/switch." ++ id1 ++ ".index.state") ∧
    (sprintfPath dir id1 indexFileName ≠ sprintfPath dir id1 indexStateFileName ∧
      sprintfPath dir id1 indexFileName ≠ sprintfPath dir id2 indexFileName ∧
      sprintfPath dir id1 indexFileName ≠ sprintfPath dir id2 indexStateFileName ∧
      sprintfPath dir id1 indexStateFileName ≠ sprintfPath dir id2 indexFileName ∧
      sprintfPath dir id1 indexStateFileName ≠ sprintfPath dir id2 indexStateFileName ∧
      sprintfPath dir id2 indexFileName ≠ sprintfPath dir id2 indexStateFileName) ∧
    (∀ (fs0 fs1 : FS) (k : StoreKind) (i : SearchIndex),
      New y fs0 k dir id1 = (.ok i, fs1) →
      (i.indexFilepath = sprintfPath dir id1 indexFileName ∧
        i.indexStateFilepath = sprintfPath dir id1 indexStateFileName) ∧
      ∀ (fs : FS) (idx : Index) (st : IndexState) (q : String),
        q = sprintfPath dir id2 indexFileName ∨ q = sprintfPath dir id2 indexStateFileName →
        (i.Write y fs idx).2 q = fs q ∧ (i.WriteState y fs st).2 q = fs q ∧
          (i.Delete fs).2 q = fs q) := by
  have hii : sprintfPath dir id1 indexFileName ≠ sprintfPath dir id2 indexFileName :=
    fun h => hid (sprintfPath_id_injective dir id1 id2 indexFileName h)
  have hss : sprintfPath dir id1 indexStateFileName ≠ sprintfPath dir id2 indexStateFileName :=
    fun h => hid (sprintfPath_id_injective dir id1 id2 indexStateFileName h)
  have his := index_path_ne_state_path dir id1 id2
  have hsi : sprintfPath dir id1 indexStateFileName ≠ sprintfPath dir id2 indexFileName :=
    fun h => index_path_ne_state_path dir id2 id1 h.symm
  refine ⟨⟨?_, ?_⟩, ⟨index_path_ne_state_path dir id1 id1, hii, his, hsi, hss,
    index_path_ne_state_path dir id2 id2⟩, ?_⟩
  · simp only [sprintfPath, indexFileName, String.append_assoc]
    rfl
  · simp only [sprintfPath, indexStateFileName, String.append_assoc]
    rfl
  · intro fs0 fs1 k i hnew
    obtain ⟨-, -, hi, hs, -, -⟩ := new_ok_spec y fs0 fs1 k dir id1 i hnew
    refine ⟨⟨hi, hs⟩, ?_⟩
    intro fs idx st q hq
    have hq1 : q ≠ i.indexFilepath := by
      rw [hi]
      rcases hq with h | h
      · rw [h]
        exact fun e => hii e.symm
      · rw [h]
        exact fun e => his e.symm
    have hq2 : q ≠ i.indexStateFilepath := by
      rw [hs]
      rcases hq with h | h
      · rw [h]
        exact fun e => hsi e.symm
      · rw [h]
        exact fun e => hss e.symm
    exact ⟨write_frame y fs i idx q hq1, writeState_frame y fs i st q hq2,
      delete_frame fs i q hq1 hq2⟩

/-- Stores `s1` and `s2` under `/state`: deleting, writing and writing the
state of `s1` leaves both files of `s2` untouched. -/
theorem store_files_independent_witness :
    ("s1" : String) ≠ "s2" ∧
    sprintfPath "/state" "s1" indexFileName ≠ sprintfPath "/state" "s2" indexStateFileName ∧
    ((sampleSearchIndex "vault").Write sampleYaml twoStores sampleIndex).2
        "/state/switch.s2.index" = twoStores "/state/switch.s2.index" ∧
    ((sampleSearchIndex "vault").WriteState sampleYaml twoStores
        { Kind := "vault", LastUpdateTime := sampleInstant }).2
        "/state/switch.s2.index" = twoStores "/state/switch.s2.index" ∧
    ((sampleSearchIndex "vault").Delete twoStores).2 "/state/switch.s2.index"
      = twoStores "/state/switch.s2.index" :=
  ⟨by decide,
   (store_files_independent sampleYaml "/state" "s1" "s2" (by decide)).2.1.2.2.1,
   ((store_files_independent sampleYaml "/state" "s1" "s2" (by decide)).2.2
      emptyStateDir emptyStateDir "vault" (sampleSearchIndex "vault")
      (Prod.ext (by decide) rfl)).2 twoStores sampleIndex
      { Kind := "vault", LastUpdateTime := sampleInstant } "/state/switch.s2.index"
      (Or.inl (by decide))⟩

/-! ## A missing index file next to a fresh state file -/

/-- C13, as stated, fails: the state directory holds the fresh state file of
the vault store `s1` and no index file. `New` gives a SearchIndex with
`HasContent` false, and `ShouldBeUsed` returns `(true, nil)` ten seconds after
the state's timestamp with a refresh interval of one minute. -/
theorem missing_index_counterexample :
    osStat vaultStateOnly "/state/switch.s1.index" = some .notExist ∧
    osStat vaultStateOnly "/state/switch.s1.index.state" = none ∧
    (New sampleYaml vaultStateOnly "vault" "/state" "s1").1 = .ok (sampleSearchIndex "vault") ∧
    (sampleSearchIndex "vault").HasContent = false ∧
    (sampleSearchIndex "vault").ShouldBeUsed sampleYaml vaultStateOnly
        (some { RefreshIndexAfter := some minute }) none (sampleInstant + 10 * second)
      = (true, none) := by
  refine ⟨by decide, by decide, by decide, by decide, by decide⟩

/-- C13, amended. When the index file is absent, the SearchIndex created by
`New` has `HasContent` false, `HasKind` false for every kind and a nil
`GetContent`, whatever the state file holds. `ShouldBeUsed` looks only at the
state file: when the state file records the bound kind and `r` is the
effective refresh interval, it returns `(true, nil)` exactly when
`now < t + r` and `(false, nil)` at or after it; and its result is the same
for every SearchIndex of the same state path and kind on every file system
with the same state file, whether or not the index file exists there. -/
theorem missing_index_leaves_staleness_to_state (y : Yaml) (fs fs2 : FS) (k : StoreKind)
    (dir id : String) (i : SearchIndex)
    (hnew : New y fs k dir id = (.ok i, fs2))
    (habsent : osStat fs (sprintfPath dir id indexFileName) = some .notExist) :
    i.HasContent = false ∧ (∀ kind, i.HasKind kind = false) ∧ i.GetContent = none ∧
    (∀ (config : Option Config) (storeLocal : Option Duration) (now : Time)
        (st : IndexState) (r : Duration),
      i.getIndexState y fs2 = .ok (some st) → st.Kind = k →
      (storeLocal = some r ∨
        (storeLocal = none ∧ ∃ c, config = some c ∧ c.RefreshIndexAfter = some r)) →
      (i.ShouldBeUsed y fs2 config storeLocal now = (true, none) ↔
          now < st.LastUpdateTime + r) ∧
        (st.LastUpdateTime + r ≤ now →
          i.ShouldBeUsed y fs2 config storeLocal now = (false, none))) ∧
    (∀ (fs3 : FS) (j : SearchIndex),
      j.indexStateFilepath = i.indexStateFilepath →
      j.kubeconfigStoreKind = i.kubeconfigStoreKind →
      fs3 i.indexStateFilepath = fs2 i.indexStateFilepath →
      ∀ (config : Option Config) (storeLocal : Option Duration) (now : Time),
        j.ShouldBeUsed y fs3 config storeLocal now
          = i.ShouldBeUsed y fs2 config storeLocal now) := by
  obtain ⟨-, hsame, -, -, hk, hcontent⟩ := new_ok_spec y fs fs2 k dir id i hnew
  have hp : fs2 (sprintfPath dir id indexFileName) = fs (sprintfPath dir id indexFileName) :=
    hsame _ (sprintfPath_ne_dir dir id indexFileName)
  have hload : (SearchIndex.unloaded k dir id).loadFromFile y fs2 = .error .notExist := by
    have h2 : osStat fs2 (sprintfPath dir id indexFileName) = some .notExist := by
      unfold osStat
      rw [hp]
      exact habsent
    simp [SearchIndex.loadFromFile, SearchIndex.unloaded, h2]
  have hc : i.content = none := by
    rcases hcontent with ⟨-, h⟩ | h
    · exact h
    · rw [hload] at h
      cases h
  refine ⟨by simp [SearchIndex.HasContent, hc], fun kind => by simp [SearchIndex.HasKind, hc],
    by simp [SearchIndex.GetContent, hc], ?_, ?_⟩
  · intro config storeLocal now st r hstate hkind hr
    have key := shouldBeUsed_of_loaded_state y fs2 i config storeLocal now st r hstate
      (hkind.trans hk.symm) hr
    constructor
    · rw [key]
      simp
    · intro h
      rw [key]
      have : ¬ now < st.LastUpdateTime + r := not_lt.mpr h
      simp [this]
  · intro fs3 j hpath hkind hfile config storeLocal now
    exact shouldBeUsed_congr y fs2 fs3 i j hpath hkind hfile config storeLocal now

/-- The fresh vault state file without an index file: nothing is loaded, the
staleness decision is that of the state file, true ten seconds after the
timestamp, and it is the same as with the index file in place and loaded. -/
theorem missing_index_leaves_staleness_to_state_witness :
    (sampleSearchIndex "vault").HasContent = false ∧
    ((sampleSearchIndex "vault").ShouldBeUsed sampleYaml vaultStateOnly
        (some { RefreshIndexAfter := some minute }) none (sampleInstant + 10 * second)
        = (true, none)
      ↔ sampleInstant + 10 * second < sampleInstant + minute) ∧
    SearchIndex.ShouldBeUsed sampleYaml vaultIndexAndState
        { sampleSearchIndex "vault" with content := some sampleIndex }
        (some { RefreshIndexAfter := some minute }) none (sampleInstant + 10 * second)
      = (sampleSearchIndex "vault").ShouldBeUsed sampleYaml vaultStateOnly
        (some { RefreshIndexAfter := some minute }) none (sampleInstant + 10 * second) :=
  have h := missing_index_leaves_staleness_to_state sampleYaml vaultStateOnly vaultStateOnly
    "vault" "/state" "s1" (sampleSearchIndex "vault") (Prod.ext (by decide) rfl) (by decide)
  ⟨h.1,
   (h.2.2.2.1 (some { RefreshIndexAfter := some minute }) none (sampleInstant + 10 * second)
      { Kind := "vault", LastUpdateTime := sampleInstant } minute (by decide) rfl
      (Or.inr ⟨rfl, _, rfl, rfl⟩)).1,
   h.2.2.2.2 vaultIndexAndState { sampleSearchIndex "vault" with content := some sampleIndex }
      rfl rfl (by decide)
      (some { RefreshIndexAfter := some minute }) none (sampleInstant + 10 * second)⟩

/-! ## The store from the flag and the environment -/

/-- The inner loop of `isDuplicatePath` is the membership test. -/
theorem isDuplicatePathIn_iff (paths : List String) (newPath : String) :
    isDuplicatePathIn paths newPath = true ↔ newPath ∈ paths := by
  induction paths with
  | nil => simp [isDuplicatePathIn]
  | cons path rest ih =>
    unfold isDuplicatePathIn
    by_cases h : path = newPath
    · simp [h]
    · have h2 : ¬ newPath = path := fun e => h e.symm
      simp [h, h2, ih]

/-- `isDuplicatePath` finds the path exactly when some store has it. -/
theorem isDuplicatePath_iff (stores : List KubeconfigStore) (newPath : String) :
    isDuplicatePath stores newPath = true ↔ ∃ st ∈ stores, newPath ∈ st.Paths := by
  induction stores with
  | nil => simp [isDuplicatePath]
  | cons st rest ih =>
    unfold isDuplicatePath
    by_cases h : isDuplicatePathIn st.Paths newPath = true
    · have hm := (isDuplicatePathIn_iff st.Paths newPath).mp h
      simp [h, hm]
    · have hm : ¬ newPath ∈ st.Paths := fun e => h ((isDuplicatePathIn_iff st.Paths newPath).mpr e)
      simp [h, hm, ih]

/-- `strings.HasSuffix`: the string ends in the suffix. -/
theorem stringsHasSuffix_iff (s suffix : String) :
    stringsHasSuffix s suffix = true ↔ ∃ t : String, s = t ++ suffix := by
  unfold stringsHasSuffix
  rw [List.isSuffixOf_iff_suffix]
  constructor
  · rintro ⟨t, ht⟩
    exact ⟨String.mk t, String.ext (by simp [String.data_append, ht])⟩
  · rintro ⟨t, ht⟩
    exact ⟨t.data, by rw [ht, String.data_append]⟩

/-- The loop over the paths of `KUBECONFIG` appends, in order, the expansion
of every path that passes the test of the loop. -/
theorem appendPathsFromEnv_eq {σ : Type} (c : Collaborators σ) (stores : List KubeconfigStore)
    (pathsFromEnv paths : List String) :
    appendPathsFromEnv c stores pathsFromEnv paths =
      paths ++ (pathsFromEnv.filter (fun path =>
        decide (path ≠ "") && !stringsHasSuffix path ".tmp" && !isDuplicatePath stores path)).map
        c.utilExpandEnv := by
  induction pathsFromEnv generalizing paths with
  | nil => simp [appendPathsFromEnv]
  | cons path rest ih =>
    unfold appendPathsFromEnv
    cases hd : isDuplicatePath stores path <;> cases hs : stringsHasSuffix path ".tmp" <;>
      by_cases hn : path = "" <;> simp [hn, List.filter_cons, ih, hd, hs]

/-- C14. `isDuplicatePath` returns true exactly when the path is a path of
some store of the list. The store that `getStoreFromFlagAndEnv` builds has
the path of the flag (when there is one) followed by the expansions of the
paths of `KUBECONFIG`, in order, that are not empty, do not end in `.tmp`
and are not a path of a configured store; no store is returned exactly when
that list is empty. A successful `initialize` returns the configured stores
followed by that store, the configured ones as they were. -/
theorem flag_and_env_store_is_appended {σ : Type} (c : Collaborators σ) (p : Process)
    (kubeconfigName : String) (config : Config) :
    (∀ (stores : List KubeconfigStore) (newPath : String),
      isDuplicatePath stores newPath = true ↔ ∃ st ∈ stores, newPath ∈ st.Paths) ∧
    (∀ path : String,
      (decide (path ≠ "") && !stringsHasSuffix path ".tmp"
          && !isDuplicatePath config.KubeconfigStores path) = true ↔
        path ≠ "" ∧ (¬ ∃ t : String, path = t ++ ".tmp") ∧
          ¬ ∃ st ∈ config.KubeconfigStores, path ∈ st.Paths) ∧
    (getStoreFromFlagAndEnv c p kubeconfigName config =
      if (if (getKubeconfigPathFromFlag c p).1.length > 0
            then [(getKubeconfigPathFromFlag c p).1] else []) ++
          ((stringsSplit p.KUBECONFIG linuxEnvKubeconfigSeperator).filter (fun path =>
            decide (path ≠ "") && !stringsHasSuffix path ".tmp"
              && !isDuplicatePath config.KubeconfigStores path)).map c.utilExpandEnv = []
      then none
      else some
        { ID := some "env-and-flag"
          Kind := p.storageBackend
          KubeconfigName := some kubeconfigName
          Paths := (if (getKubeconfigPathFromFlag c p).1.length > 0
              then [(getKubeconfigPathFromFlag c p).1] else []) ++
            ((stringsSplit p.KUBECONFIG linuxEnvKubeconfigSeperator).filter (fun path =>
              decide (path ≠ "") && !stringsHasSuffix path ".tmp"
                && !isDuplicatePath config.KubeconfigStores path)).map c.utilExpandEnv
          ShowPrefix := some false }) ∧
    (∀ (stores : List σ) (result : Config), initializeSwitcher c p = .ok (stores, result) →
      ∃ (loaded : Option Config) (name : String),
        c.LoadConfigFromFile (c.utilExpandEnv p.configPath) = .ok loaded ∧
        result.KubeconfigStores =
          (loaded.getD Config.zero).KubeconfigStores ++
            (getStoreFromFlagAndEnv c p name (loaded.getD Config.zero)).toList) := by
  refine ⟨isDuplicatePath_iff, ?_, ?_, ?_⟩
  · intro path
    have hs := stringsHasSuffix_iff path ".tmp"
    have hd := isDuplicatePath_iff config.KubeconfigStores path
    cases hsb : stringsHasSuffix path ".tmp" <;>
      cases hdb : isDuplicatePath config.KubeconfigStores path <;>
      rw [hsb] at hs <;> rw [hdb] at hd <;> simp [← hs, ← hd]
  · unfold getStoreFromFlagAndEnv
    simp only [appendPathsFromEnv_eq, List.length_eq_zero]
  · intro stores result h
    have tail : ∀ (config0 : Config) (name : String),
        (if (match getStoreFromFlagAndEnv c p name config0 with
              | some storeFromFlags =>
                { config0 with
                  KubeconfigStores := config0.KubeconfigStores ++ [storeFromFlags] }
              | none => config0).KubeconfigStores.length = 0 then
            (.error (.errorf "you need to point kubeswitch to a kubeconfig file") :
              Except Error (List σ × Config))
          else
            match initializeStores c p name
              (match getStoreFromFlagAndEnv c p name config0 with
                | some storeFromFlags =>
                  { config0 with
                    KubeconfigStores := config0.KubeconfigStores ++ [storeFromFlags] }
                | none => config0).KubeconfigStores [] with
            | .error err => .error err
            | .ok stores => .ok (stores, match getStoreFromFlagAndEnv c p name config0 with
                | some storeFromFlags =>
                  { config0 with
                    KubeconfigStores := config0.KubeconfigStores ++ [storeFromFlags] }
                | none => config0)) = .ok (stores, result) →
        result.KubeconfigStores =
          config0.KubeconfigStores ++ (getStoreFromFlagAndEnv c p name config0).toList := by
      intro config0 name h0
      split at h0
      · cases h0
      · split at h0
        · cases h0
        · simp only [Except.ok.injEq, Prod.mk.injEq] at h0
          rw [← h0.2]
          cases getStoreFromFlagAndEnv c p name config0 <;> simp
    unfold initializeSwitcher at h
    cases hl : c.LoadConfigFromFile (c.utilExpandEnv p.configPath) with
    | error e =>
      rw [hl] at h
      cases h
    | ok loaded =>
      rw [hl] at h
      cases loaded with
      | none =>
        exact ⟨none, _, rfl, tail Config.zero _ h⟩
      | some config0 =>
        by_cases hv : (c.ValidateConfig config0).length > 0
        · simp [hv] at h
        · simp only [hv, if_false] at h
          exact ⟨some config0, _, rfl, tail config0 _ h⟩

/-- The store `local` is configured and `KUBECONFIG` names a new kubeconfig,
a temporary file, an empty entry and the path of `local`: the new kubeconfig
alone makes the additional store, which `initialize` appends. -/
theorem flag_and_env_store_is_appended_witness :
    isDuplicatePath configWithLocal.KubeconfigStores "/home/user/.kube/config" = true ∧
    getStoreFromFlagAndEnv (sampleCollaborators (some configWithLocal))
        (sampleProcess sampleKubeconfigEnv) "config" configWithLocal = some sampleEnvStore ∧
    initializeSwitcher (sampleCollaborators (some configWithLocal))
        (sampleProcess sampleKubeconfigEnv)
      = .ok (["memory:filesystem/local", "memory:filesystem/env-and-flag"],
          { configWithLocal with KubeconfigStores := [localStore, sampleEnvStore] }) ∧
    ∃ (loaded : Option Config) (name : String),
      (sampleCollaborators (some configWithLocal)).LoadConfigFromFile
          ((sampleCollaborators (some configWithLocal)).utilExpandEnv
            (sampleProcess sampleKubeconfigEnv).configPath) = .ok loaded ∧
      [localStore, sampleEnvStore] =
        (loaded.getD Config.zero).KubeconfigStores ++
          (getStoreFromFlagAndEnv (sampleCollaborators (some configWithLocal))
            (sampleProcess sampleKubeconfigEnv) name (loaded.getD Config.zero)).toList :=
  ⟨by decide, by decide, by decide,
   (flag_and_env_store_is_appended (sampleCollaborators (some configWithLocal))
      (sampleProcess sampleKubeconfigEnv) "config" configWithLocal).2.2.2
      ["memory:filesystem/local", "memory:filesystem/env-and-flag"]
      { configWithLocal with KubeconfigStores := [localStore, sampleEnvStore] }
      (by decide)⟩

/-! ## Stores that fail to construct -/

/-- A store of one of the kinds filesystem, vault, Azure and EKS that is
explicitly not required and fails to construct is skipped: the loop goes on
with the remaining stores and the same list of stores built so far. -/
theorem initializeStores_skips_optional {σ : Type} (c : Collaborators σ) (p : Process)
    (name : String) (st : KubeconfigStore) (rest : List KubeconfigStore) (stores : List σ)
    (hname : st.KubeconfigName = none)
    (hreq : st.Required = some false)
    (hfail :
      (st.Kind = StoreKindFilesystem ∧ ∃ e, c.NewFilesystemStore name st = .error e) ∨
      (st.Kind = StoreKindVault ∧
        ∃ e, c.NewVaultStore p.vaultAPIAddressFromFlag vaultTokenFileName name st = .error e) ∨
      (st.Kind = StoreKindAzure ∧ ∃ e, c.NewAzureStore st p.stateDirectory = .error e) ∨
      (st.Kind = StoreKindEKS ∧ ∃ e, c.NewEKSStore st p.stateDirectory = .error e)) :
    initializeStores c p name (st :: rest) stores = initializeStores c p name rest stores := by
  have hskip : constructStore c p name st = .skipped := by
    rcases hfail with ⟨hk, e, he⟩ | ⟨hk, e, he⟩ | ⟨hk, e, he⟩ | ⟨hk, e, he⟩ <;>
      simp [constructStore, hk, he, KubeconfigStore.explicitlyNotRequired, hreq,
        StoreKindFilesystem, StoreKindVault, StoreKindGardener, StoreKindGKE, StoreKindAzure,
        StoreKindEKS]
  rw [initializeStores]
  simp only [hname, hskip]

/-- A Gardener or GKE store that fails to construct ends the loop with an
error, whatever its `Required` pointer says. -/
theorem initializeStores_fails_on_gardener_or_gke {σ : Type} (c : Collaborators σ)
    (p : Process) (name : String) (st : KubeconfigStore) (rest : List KubeconfigStore)
    (stores : List σ)
    (hfail :
      (st.Kind = StoreKindGardener ∧ ∃ e, c.NewGardenerStore st p.stateDirectory = .error e) ∨
      (st.Kind = StoreKindGKE ∧ ∃ e, c.NewGKEStore st p.stateDirectory = .error e)) :
    ∃ err, initializeStores c p name (st :: rest) stores = .error err := by
  rcases hfail with ⟨hk, e, he⟩ | ⟨hk, e, he⟩
  · refine ⟨.errorf "unable to create Gardener store", ?_⟩
    rw [initializeStores]
    simp [constructStore, hk, he, StoreKindFilesystem, StoreKindVault, StoreKindGardener]
  · refine ⟨.errorf "unable to create GKE store", ?_⟩
    rw [initializeStores]
    simp [constructStore, hk, he, StoreKindFilesystem, StoreKindVault, StoreKindGardener,
      StoreKindGKE]

/-- C11, at the failing input: the config holds a Gardener store with
`required: false` whose construction fails, followed by a filesystem store.
`initialize` returns the error of the Gardener store, and likewise for a GKE
store; with an Azure store in the same place the store is dropped and the
filesystem store is returned. -/
theorem initialize_fails_on_optional_gardener_store :
    (configWithOptional StoreKindGardener).KubeconfigStores.map (fun st => st.Required)
      = [some false, none] ∧
    initializeSwitcher (sampleCollaborators (some (configWithOptional StoreKindGardener)))
        (sampleProcess "") = .error (.errorf "unable to create Gardener store") ∧
    initializeSwitcher (sampleCollaborators (some (configWithOptional StoreKindGKE)))
        (sampleProcess "") = .error (.errorf "unable to create GKE store") ∧
    initializeSwitcher (sampleCollaborators (some (configWithOptional StoreKindAzure)))
        (sampleProcess "")
      = .ok (["memory:filesystem/local"], configWithOptional StoreKindAzure) := by
  refine ⟨by decide, by decide, by decide, by decide⟩

end Kubeswitch
